import Mathlib

/-!
Verification development for the ChessPairings Swiss tournament manager.

The definitions below are a shallow embedding of the pairing engine,
result recorder, round state machine and standings calculator found in
src/tournament_db.py and src/tournament_routes.py (one tournament at a
time, matching the spec's scope).  SQLite rows become Lean structures,
cursors become list traversals in insertion order, and the floating
point score arithmetic — which in the source only ever adds or
subtracts 1.0 and 0.5, both exactly representable — is carried in
integer half-point units (`score2 = 2 * score`).  Derived standings
quantities that genuinely divide (Buchholz bye credit, performance
percentage) are computed in ℚ.
-/

namespace ChessPairings

/-- A stable insertion of `a` into `l`: `a` is placed before the first
element that is not strictly below it under `lt`.  Together with
`ssort` this reproduces Python's stable ascending `list.sort`. -/
def sinsert {α : Type} (lt : α → α → Bool) (a : α) : List α → List α
  | [] => [a]
  | b :: l => if lt b a then b :: sinsert lt a l else a :: b :: l

/-- Stable sort by the strict comparator `lt` (Python `list.sort`). -/
def ssort {α : Type} (lt : α → α → Bool) : List α → List α
  | [] => []
  | a :: l => sinsert lt a (ssort lt l)

/-! ## Data model

Rows of the `tournament_players ⋈ players`, `rounds`, `pairings` and
`manual_byes` tables for a single tournament.  The `tiebreak1..3`
columns of `tournament_players` stay at their 0.0 default (nothing in
the source ever updates them), so the SQL ordering
`score DESC, tiebreak1 DESC, ..., rating DESC` degenerates to
`score DESC, rating DESC` and the columns are omitted here. -/

abbrev PlayerId := Nat

structure TPlayer where
  id : PlayerId
  rating : Int
  /-- `tournament_players.score`, in half points (2 × the stored float). -/
  score2 : Int
  deriving Repr, DecidableEq

structure Round where
  id : Nat
  number : Nat
  status : String
  deriving Repr, DecidableEq

structure Pairing where
  roundId : Nat
  white : PlayerId
  black : Option PlayerId
  board : Nat
  status : String
  result : Option String
  deriving Repr, DecidableEq

structure DB where
  players : List TPlayer
  rounds : List Round
  /-- `pairings` rows as (id, row), in insertion (rowid) order. -/
  pairings : List (Nat × Pairing)
  /-- `manual_byes` rows as (round_number, player_id). -/
  manualByes : List (Nat × PlayerId)
  nextPairingId : Nat
  status : String
  deriving Repr, DecidableEq

def pairingsOfRound (db : DB) (rid : Nat) : List (Nat × Pairing) :=
  db.pairings.filter (fun e => e.2.roundId == rid)

def roundNumberOf (db : DB) (rid : Nat) : Option Nat :=
  (db.rounds.find? (fun r => r.id == rid)).map (·.number)

def playerIds (db : DB) : List PlayerId := db.players.map (·.id)

def scoreOf (db : DB) (pid : PlayerId) : Int :=
  ((db.players.find? (fun p => p.id == pid)).map (·.score2)).getD 0

/-- `get_previous_pairings` (tournament_db.py:893): opponents of `pid`
from pairings with status `'completed'`; the NULL opponents of bye rows
are filtered out.  (`SELECT DISTINCT` only drops duplicates, which does
not affect the membership tests this list is used for.) -/
def getPreviousPairings (db : DB) (pid : PlayerId) : List PlayerId :=
  db.pairings.filterMap (fun e =>
    if e.2.status == "completed" then
      if e.2.white == pid then e.2.black
      else if e.2.black == some pid then some e.2.white
      else none
    else none)

/-- `get_player_bye_count` (tournament_db.py:866): completed pairings
where `pid` is white and black is NULL. -/
def getPlayerByeCount (db : DB) (pid : PlayerId) : Nat :=
  (db.pairings.filter (fun e =>
    e.2.white == pid && e.2.black == none && e.2.status == "completed")).length

/-- White games of `get_player_color_history` (tournament_db.py:713):
completed pairings where `pid` sits on the white side (byes included,
as in the source's CASE expression). -/
def historyWhiteCount (db : DB) (pid : PlayerId) : Nat :=
  (db.pairings.filter (fun e =>
    e.2.status == "completed" && e.2.white == pid)).length

def historyBlackCount (db : DB) (pid : PlayerId) : Nat :=
  (db.pairings.filter (fun e =>
    e.2.status == "completed" && e.2.black == some pid)).length

/-- Games in which `pid` was assigned white against a real opponent
(any status): the claim C2 colour count. -/
def whiteGames (db : DB) (pid : PlayerId) : Nat :=
  (db.pairings.filter (fun e =>
    e.2.white == pid && e.2.black != none)).length

def blackGames (db : DB) (pid : PlayerId) : Nat :=
  (db.pairings.filter (fun e => e.2.black == some pid)).length

def updateScore (players : List TPlayer) (pid : PlayerId) (d : Int) : List TPlayer :=
  players.map (fun p => if p.id == pid then { p with score2 := p.score2 + d } else p)

/-- `UPDATE tournament_players ... WHERE player_id IN (?, ?)` with a
possibly-NULL second id (matches nothing when NULL). -/
def updateScore2 (players : List TPlayer) (a : PlayerId) (b : Option PlayerId)
    (d : Int) : List TPlayer :=
  players.map (fun p =>
    if p.id == a || some p.id == b then { p with score2 := p.score2 + d } else p)

/-- `create_pairing` (tournament_db.py:1615): a NULL black id is a bye,
stored already completed with result `'1-0'` and a full (1.0 = 2 half
points) score award; a real pairing is stored `'pending'` with no
result. -/
def createPairing (db : DB) (rid : Nat) (white : PlayerId)
    (black : Option PlayerId) (board : Nat) : DB :=
  match black with
  | none =>
    { db with
      pairings := db.pairings ++
        [(db.nextPairingId, ⟨rid, white, none, board, "completed", some "1-0"⟩)],
      players := updateScore db.players white 2,
      nextPairingId := db.nextPairingId + 1 }
  | some b =>
    { db with
      pairings := db.pairings ++
        [(db.nextPairingId, ⟨rid, white, some b, board, "pending", none⟩)],
      nextPairingId := db.nextPairingId + 1 }

/-- The reversal block of `record_result` (tournament_db.py:1680-1701):
subtract the previous result's half points (a NULL previous result, or
one outside the three known strings, subtracts nothing; a 0-1 on a
NULL black id matches no row). -/
def reversePoints (pl : List TPlayer) (white : PlayerId) (black : Option PlayerId) :
    Option String → List TPlayer
  | none => pl
  | some r =>
    if r == "1-0" then updateScore pl white (-2)
    else if r == "0-1" then
      match black with
      | some b => updateScore pl b (-2)
      | none => pl
    else if r == "0.5-0.5" then updateScore2 pl white black (-1)
    else pl

/-- The application block of `record_result` (tournament_db.py:1717-1738):
add the new result's half points; clearing (`None`) adds nothing. -/
def applyPoints (pl : List TPlayer) (white : PlayerId) (black : Option PlayerId) :
    Option String → List TPlayer
  | none => pl
  | some r =>
    if r == "1-0" then updateScore pl white 2
    else if r == "0-1" then
      match black with
      | some b => updateScore pl b 2
      | none => pl
    else if r == "0.5-0.5" then updateScore2 pl white black 1
    else pl

/-- The pairing-row update of `record_result`: a concrete result marks
the row `'completed'`, clearing marks it `'scheduled'`. -/
def setPairingResult (pairings : List (Nat × Pairing)) (pid : Nat)
    (res : Option String) : List (Nat × Pairing) :=
  pairings.map (fun e2 =>
    if e2.1 == pid then
      (e2.1,
        { e2.2 with
          result := res
          status := (match res with | none => "scheduled" | some _ => "completed") })
    else e2)

/-- `record_result` (tournament_db.py:1653).  The previous result's
half-point contribution is subtracted, the pairing row is updated
(`None` clears it back to status `'scheduled'`), and the new result's
half points are added.  Returns `False` untouched when the pairing id
does not exist. -/
def recordResult (db : DB) (pid : Nat) (res : Option String) : Bool × DB :=
  match db.pairings.find? (fun e => e.1 == pid) with
  | none => (false, db)
  | some e =>
    let p := e.2
    (true, { db with
      players := applyPoints (reversePoints db.players p.white p.black p.result)
        p.white p.black res,
      pairings := setPairingResult db.pairings pid res })

/-- `_update_tournament_status` (tournament_db.py:1912): bumps the
tournament from `'upcoming'` to `'ongoing'` when some round is ongoing. -/
def updateTournamentStatus (db : DB) : DB :=
  if db.rounds.any (fun r => r.status == "ongoing") && db.status == "upcoming" then
    { db with status := "ongoing" }
  else db

/-- `complete_round` (tournament_db.py:1773): marks the round completed
unconditionally (the all-results-in check lives in the route below). -/
def completeRound (db : DB) (rid : Nat) : Bool × DB :=
  match db.rounds.find? (fun r => r.id == rid) with
  | none => (false, db)
  | some _ =>
    (true, updateTournamentStatus
      { db with rounds := db.rounds.map (fun r =>
          if r.id == rid then { r with status := "completed" } else r) })

/-- The `complete_round` form branch of `manage_pairings`
(tournament_routes.py:1245-1258): completion is refused — the
`RoundNotComplete` outcome — while some pairing with a real black
player lacks a result. -/
inductive CompleteOutcome
  | ok (db : DB)
  | roundNotComplete
  deriving Repr, DecidableEq

def routeCompleteRound (db : DB) (rid : Nat) : CompleteOutcome :=
  if (pairingsOfRound db rid).all (fun e =>
      e.2.black == none || e.2.result.isSome) then
    .ok (completeRound db rid).2
  else .roundNotComplete

/-- `conclude_tournament` (tournament_routes.py:1843-1875): every
non-completed round is marked completed, every pairing with status
`'pending'` and no result is force-resolved as a draw, and the
tournament is frozen. -/
def concludeTournament (db : DB) : DB :=
  let db1 : DB := { db with rounds := db.rounds.map (fun (r : Round) =>
      if r.status != "completed" then { r with status := "completed" } else r) }
  let db2 : DB := { db1 with pairings := db1.pairings.map (fun (e : Nat × Pairing) =>
      if e.2.status == "pending" && e.2.result == none then
        (e.1, { e.2 with status := "completed", result := some "0.5-0.5" })
      else e) }
  { db2 with status := "completed" }

/-! ## generate_pairings (tournament_db.py:1127-1452)

The engine is mirrored sub-loop by sub-loop.  All comparator keys are
strict orders on integer data, matching Python's stable `list.sort`. -/

/-- `players.sort(key=lambda x: x['rating'], reverse=True)`. -/
def ratingDescLt (a b : TPlayer) : Bool := b.rating < a.rating

/-- `key=lambda x: (-score, -rating)`; also the `ORDER BY` of
`get_tournament_players_with_scores` (the tiebreak columns it also
orders by are never written and stay 0). -/
def swissLt (a b : TPlayer) : Bool :=
  b.score2 < a.score2 || (a.score2 == b.score2 && b.rating < a.rating)

def getTournamentPlayersWithScores (db : DB) : List TPlayer :=
  ssort swissLt db.players

/-- `SELECT COALESCE(MAX(board_number), 0) FROM pairings WHERE round_id = ?`. -/
def maxBoardOfRound (db : DB) (rid : Nat) : Nat :=
  (pairingsOfRound db rid).foldl (fun m e => max m e.2.board) 0

/-- The Python set `players_with_manual_byes` for the given round
number (each id once). -/
def manualByeIdsForRound (db : DB) (rnum : Nat) : List PlayerId :=
  ((db.manualByes.filter (fun e => e.1 == rnum)).map (·.2)).dedup

/-- Lines 1179-1198: one bye pairing per manually byed player present in
the player list, each on the next free board (the `INSERT OR IGNORE`
into `tournament_players` is a no-op because these players come from a
join with that very table). -/
def createManualByes (db : DB) (rid : Nat) (byeIds : List PlayerId)
    (players : List TPlayer) : DB :=
  byeIds.foldl (fun acc pid =>
    if players.any (fun p => p.id == pid) then
      createPairing acc rid pid none (maxBoardOfRound acc rid + 1)
    else acc) db

/-- Lines 1212-1216: pair index `i` of the top half against index `i`
of the bottom half of the rating-sorted list. -/
def round1Pairs (sorted : List TPlayer) : List (TPlayer × TPlayer) :=
  (sorted.take (sorted.length / 2)).zip (sorted.drop (sorted.length / 2))

/-- The candidate scan of the dedented block (lines 1262-1292): skip
candidates already paired, out of score tolerance (`scoreDiff2` is the
tolerance in half points), already played, or equal to `player1`; keep
the first candidate attaining the minimal `min(option1, option2)`
colour balance, oriented by `option1 <= option2`. -/
def firstPassSearch (db : DB) (p1 : TPlayer) (w1 b1 : Int)
    (paired prevOpps : List PlayerId) (scoreDiff2 : Int) :
    List TPlayer → Option (Int × (TPlayer × TPlayer))
  | [] => none
  | p2 :: rest =>
    if paired.contains p2.id || |p2.score2 - p1.score2| > scoreDiff2 ||
        prevOpps.contains p2.id || p2.id == p1.id then
      firstPassSearch db p1 w1 b1 paired prevOpps scoreDiff2 rest
    else
      let w2 : Int := historyWhiteCount db p2.id
      let b2 : Int := historyBlackCount db p2.id
      let option1 : Int := |(w1 + 1 - b1) - (w2 - (b2 + 1))|
      let option2 : Int := |(b1 + 1 - w1) - (w2 + 1 - b2)|
      let cur : Int := min option1 option2
      let pr : TPlayer × TPlayer := if option1 ≤ option2 then (p1, p2) else (p2, p1)
      match firstPassSearch db p1 w1 b1 paired prevOpps scoreDiff2 rest with
      | none => some (cur, pr)
      | some (cb, cpr) => if cur ≤ cb then some (cur, pr) else some (cb, cpr)

/-- Lines 1240-1299.  The body of the "first pass"
`for i in range(len(players))` loop was dedented out of the loop, so
the block below it runs exactly once, with `player1 = players[-1]` and
`i = len(players) - 1`; its candidate range `players[i+1:]` is the
empty suffix `players.drop players.length`, so at every tolerance level
the scan finds nothing and this pass pairs nobody. -/
def swissFirstPass (db : DB) (players : List TPlayer) : List (TPlayer × TPlayer) :=
  match players.getLast? with
  | none => []
  | some p1 =>
    let prevOpps := getPreviousPairings db p1.id
    let w1 : Int := historyWhiteCount db p1.id
    let b1 : Int := historyBlackCount db p1.id
    match ([0, 1, 2, 3, 4] : List Int).findSome? (fun tol =>
        firstPassSearch db p1 w1 b1 [] prevOpps tol
          (players.drop players.length)) with
    | some r => [r.2]
    | none => []

/-- Lines 1314-1331: scan pairs `(i, j)`, `i < j`, of the unpaired
players in sorted order and take the first pair that has not met
before. -/
def findTitlePair (db : DB) : List TPlayer → Option (TPlayer × TPlayer)
  | [] => none
  | p :: rest =>
    match rest.find? (fun q => !((getPreviousPairings db p.id).contains q.id)) with
    | some q => some (p, q)
    | none => findTitlePair db rest

/-- `key=lambda x: (x['bye_count'], x['rating'])`, ascending. -/
def byeLt (db : DB) (a b : TPlayer) : Bool :=
  getPlayerByeCount db a.id < getPlayerByeCount db b.id ||
  (getPlayerByeCount db a.id == getPlayerByeCount db b.id && a.rating < b.rating)

/-- The eligible-for-bye pool of lines 1336-1360: the bottom half of
the unpaired list when more than one player remains. -/
def byeEligiblePool (unpaired : List TPlayer) : List TPlayer :=
  if unpaired.length > 1 then unpaired.drop (unpaired.length / 2) else unpaired

/-- Lines 1352-1360: fall back to the full unpaired list when the pool
is empty (which cannot in fact occur for a nonempty unpaired list). -/
def byeEligible (unpaired : List TPlayer) : List TPlayer :=
  if (byeEligiblePool unpaired).isEmpty then unpaired else byeEligiblePool unpaired

/-- Lines 1334-1374: sort the eligible pool by (bye count, rating)
ascending and give the bye to its first element. -/
def swissByePick (db : DB) (unpaired : List TPlayer) : Option TPlayer :=
  (ssort (byeLt db) (byeEligible unpaired)).head?

/-- The candidate scan of the final pairing loop (lines 1390-1411):
keep the first candidate attaining the minimal `min(option1, option2)`
(no rematch or score checks here).  Returns the balance, the oriented
pairing, and the unpaired list with the chosen candidate removed. -/
def findBestBalance (db : DB) (p1 : TPlayer) (w1 b1 : Int) :
    List TPlayer → Option ((Int × (TPlayer × TPlayer)) × List TPlayer)
  | [] => none
  | p2 :: rest =>
    let w2 : Int := historyWhiteCount db p2.id
    let b2 : Int := historyBlackCount db p2.id
    let option1 : Int := |(w1 + 1 - b1) - (w2 - (b2 + 1))|
    let option2 : Int := |(b1 + 1 - w1) - (w2 + 1 - b2)|
    let cur : Int := min option1 option2
    let pr : TPlayer × TPlayer := if option1 ≤ option2 then (p1, p2) else (p2, p1)
    match findBestBalance db p1 w1 b1 rest with
    | none => some ((cur, pr), rest)
    | some ((cb, cpr), crem) =>
      if cur ≤ cb then some ((cur, pr), rest) else some ((cb, cpr), p2 :: crem)

/-- Lines 1376-1423: repeatedly pop the first unpaired player and pair
it with the colour-balance-best remaining candidate.  A lone leftover
player is silently dropped (`while len(unpaired) >= 2`); the
`else` fallback of the source is unreachable because the scan always
selects some candidate from a nonempty list.  Each iteration removes
two players, so running the loop body `fuel` times with
`fuel = length` is exact; the fuel argument only drives the structural
recursion. -/
def colorPairLoopF (db : DB) : Nat → List TPlayer → List (TPlayer × TPlayer)
  | 0, _ => []
  | _, [] => []
  | _, [_] => []
  | fuel + 1, p1 :: p2 :: rest =>
    let w1 : Int := historyWhiteCount db p1.id
    let b1 : Int := historyBlackCount db p1.id
    match findBestBalance db p1 w1 b1 (p2 :: rest) with
    | some (r, rem) => r.2 :: colorPairLoopF db fuel rem
    | none =>
      (if p2.rating ≤ p1.rating then (p1, p2) else (p2, p1)) :: colorPairLoopF db fuel rest

def colorPairLoop (db : DB) (l : List TPlayer) : List (TPlayer × TPlayer) :=
  colorPairLoopF db l.length l

/-- Lines 1425-1434: create the accumulated pairings, numbering boards
`1, 2, ...` in list order (in this loop byes also consume a board
number). -/
def createFromList (rid : Nat) : DB → Nat → List (PlayerId × Option PlayerId) → DB
  | db, _, [] => db
  | db, board, (w, b) :: rest => createFromList rid (createPairing db rid w b board) (board + 1) rest

/-- Lines 1437-1442: `UPDATE rounds SET status = 'in_progress' ...`. -/
def setRoundInProgress (db : DB) (rid : Nat) : DB :=
  { db with rounds := db.rounds.map (fun (r : Round) =>
      if r.id == rid then { r with status := "in_progress" } else r) }

/-- The odd-count handling of the Swiss branch (lines 1304-1374),
returning the extra pairings (title pair and/or bye, in order) and the
remaining unpaired players. -/
def swissOddBlock (db : DB) (unpaired : List TPlayer) :
    List (PlayerId × Option PlayerId) × List TPlayer :=
  if unpaired.length % 2 != 0 then
    let titled :=
      if unpaired.length ≥ 3 then findTitlePair db (ssort swissLt unpaired) else none
    let pairsA : List (PlayerId × Option PlayerId) :=
      match titled with
      | some pr => [(pr.1.id, some pr.2.id)]
      | none => []
    let unpairedA :=
      match titled with
      | some pr => unpaired.filter (fun p => !(p.id == pr.1.id || p.id == pr.2.id))
      | none => unpaired
    if unpairedA.length % 2 != 0 then
      match swissByePick db unpairedA with
      | some bp =>
        (pairsA ++ [(bp.id, none)], unpairedA.filter (fun p => p.id != bp.id))
      | none => (pairsA, unpairedA)
    else (pairsA, unpairedA)
  else ([], unpaired)

/-- `generate_pairings(tournament_id, round_id, method='swiss')`
(tournament_db.py:1127).  Returns the success flag and the new state. -/
def generatePairings (db : DB) (rid : Nat) : Bool × DB :=
  let players0 := getTournamentPlayersWithScores db
  if players0.length < 2 then (false, db)
  else
    match roundNumberOf db rid with
    | none => (false, db)
    | some rnum =>
      let db1 : DB :=
        { db with pairings := db.pairings.filter (fun e => e.2.roundId != rid) }
      let byeIds := manualByeIdsForRound db1 rnum
      let db2 := createManualByes db1 rid byeIds players0
      let playersToPair := players0.filter (fun p => !(byeIds.contains p.id))
      if rnum == 1 then
        let sorted := ssort ratingDescLt playersToPair
        let db3 :=
          if sorted.length % 2 != 0 && byeIds.isEmpty then
            match sorted.getLast? with
            | some bp => createPairing db2 rid bp.id none (maxBoardOfRound db2 rid + 1)
            | none => db2
          else db2
        let db4 := createFromList rid db3 1
          ((round1Pairs sorted).map (fun pr => (pr.1.id, some pr.2.id)))
        (true, setRoundInProgress db4 rid)
      else
        let sortedPlayers := ssort swissLt playersToPair
        if sortedPlayers.isEmpty then
          -- the dedented first pass dereferences `players[-1]`: with no
          -- eligible players this raises NameError; the rollback undoes
          -- nothing beyond the last create_pairing commit, so the state
          -- keeps the deletion and the manual byes
          (false, db2)
        else
          let fp := swissFirstPass db2 sortedPlayers
          let pairedIds := fp.foldl (fun acc pr => acc ++ [pr.1.id, pr.2.id]) []
          let unpaired := sortedPlayers.filter (fun p => !(pairedIds.contains p.id))
          let fpPairs : List (PlayerId × Option PlayerId) :=
            fp.map (fun pr => (pr.1.id, some pr.2.id))
          let (oddPairs, unpaired2) := swissOddBlock db2 unpaired
          let colorPairs : List (PlayerId × Option PlayerId) :=
            (colorPairLoop db2 unpaired2).map (fun pr => (pr.1.id, some pr.2.id))
          let db4 := createFromList rid db2 1 (fpPairs ++ oddPairs ++ colorPairs)
          (true, setRoundInProgress db4 rid)

/-! ## get_standings, individual view (tournament_db.py:2161-2379)

The per-player statistics pass and the Buchholz / performance
tiebreaks.  The final sort of the rows is a permutation and neither
adds, drops nor modifies a row, so the per-row claims are stated over
the computed row of each player; likewise the player set of the
standings query (current players unioned with past pairing
participants) is `db.players` here, matching states where nobody was
deleted from `tournament_players`. -/

/-- The tournament's configured `win/draw/loss/bye` point values
(defaults 1 / 0.5 / 0 / 1). -/
structure PointValues where
  win : ℚ
  draw : ℚ
  loss : ℚ
  bye : ℚ
  deriving Repr, DecidableEq

def defaultPoints : PointValues := ⟨1, 1/2, 0, 1⟩

/-- The mutable per-player dict of the stats pass (lines 2228-2237),
restricted to the fields the tiebreaks read. -/
structure SRow where
  wins : Nat
  losses : Nat
  draws : Nat
  points : ℚ
  gamesPlayed : Nat
  opponents : List (Option PlayerId)
  deriving Repr, DecidableEq

def initRow : SRow := ⟨0, 0, 0, 0, 0, []⟩

def statUpdate (st : PlayerId → SRow) (pid : PlayerId) (f : SRow → SRow) :
    PlayerId → SRow :=
  fun q => if q = pid then f (st q) else st q

/-- One pairing of the stats loop (lines 2242-2290).  A pairing counts
as completed iff its result is non-NULL; byes award the configured bye
points and count as wins; opponents are recorded even for uncompleted
games. -/
def statsStep (cfg : PointValues) (ids : List PlayerId)
    (st : PlayerId → SRow) (e : Nat × Pairing) : PlayerId → SRow :=
  let p := e.2
  let isCompleted := p.result.isSome
  match p.black with
  | none =>
    if ids.contains p.white then
      let st1 :=
        if isCompleted then
          statUpdate st p.white (fun r =>
            { r with wins := r.wins + 1, points := r.points + cfg.bye,
                     gamesPlayed := r.gamesPlayed + 1 })
        else st
      statUpdate st1 p.white (fun r => { r with opponents := r.opponents ++ [none] })
    else st
  | some bid =>
    if ids.contains p.white && ids.contains bid then
      let st1 :=
        statUpdate
          (statUpdate st p.white (fun r => { r with opponents := r.opponents ++ [some bid] }))
          bid (fun r => { r with opponents := r.opponents ++ [some p.white] })
      if isCompleted then
        let st2 :=
          statUpdate
            (statUpdate st1 p.white (fun r => { r with gamesPlayed := r.gamesPlayed + 1 }))
            bid (fun r => { r with gamesPlayed := r.gamesPlayed + 1 })
        if p.result == some "1-0" then
          statUpdate
            (statUpdate st2 p.white (fun r =>
              { r with wins := r.wins + 1, points := r.points + cfg.win }))
            bid (fun r => { r with losses := r.losses + 1, points := r.points + cfg.loss })
        else if p.result == some "0-1" then
          statUpdate
            (statUpdate st2 bid (fun r =>
              { r with wins := r.wins + 1, points := r.points + cfg.win }))
            p.white (fun r => { r with losses := r.losses + 1, points := r.points + cfg.loss })
        else if p.result == some "0.5-0.5" then
          statUpdate
            (statUpdate st2 p.white (fun r =>
              { r with draws := r.draws + 1, points := r.points + cfg.draw }))
            bid (fun r => { r with draws := r.draws + 1, points := r.points + cfg.draw })
        else st2
      else st1
    else st

def statsOn (cfg : PointValues) (ids : List PlayerId)
    (l : List (Nat × Pairing)) : PlayerId → SRow :=
  l.foldl (statsStep cfg ids) (fun _ => initRow)

def standingsStats (cfg : PointValues) (db : DB) : PlayerId → SRow :=
  statsOn cfg (playerIds db) db.pairings

/-- `avg_points` of line 2308: the field's average points. -/
def avgPoints (cfg : PointValues) (db : DB) : ℚ :=
  (db.players.map (fun p => (standingsStats cfg db p.id).points)).sum /
    (max 1 db.players.length : ℚ)

/-- The opponent filter of lines 2302-2313 (`for i, opp_id in
enumerate(...)` with a running index): a real opponent at index `i` of
the opponent list is kept iff it is a known player and
`games_played > i` — a positional test, not a completedness test. -/
def completedOppAux (ids : List PlayerId) (gp : Nat) : Nat → List (Option PlayerId) → List PlayerId
  | _, [] => []
  | i, none :: rest => completedOppAux ids gp (i + 1) rest
  | i, some opp :: rest =>
    if ids.contains opp && decide (gp > i) then opp :: completedOppAux ids gp (i + 1) rest
    else completedOppAux ids gp (i + 1) rest

def completedOpponents (ids : List PlayerId) (gp : Nat)
    (opponents : List (Option PlayerId)) : List PlayerId :=
  completedOppAux ids gp 0 opponents

/-- Buchholz of lines 2299-2322: half the field's average points per
bye entry, plus the points of the positionally filtered opponents. -/
def buchholzOf (cfg : PointValues) (db : DB) (pid : PlayerId) : ℚ :=
  let st := standingsStats cfg db
  let row := st pid
  let ids := playerIds db
  let byePart : ℚ :=
    ((row.opponents.filter (fun o => o == none)).length : ℚ) *
      (avgPoints cfg db * (1 / 2))
  let comp := completedOpponents ids row.gamesPlayed row.opponents
  byePart + (comp.map (fun opp => if ids.contains opp then (st opp).points else 0)).sum

/-- Python's `round`: round half to even. -/
def pyRound (q : ℚ) : ℤ :=
  let f := ⌊q⌋
  if q - f < 1 / 2 then f
  else if (1 : ℚ) / 2 < q - f then f + 1
  else if f % 2 = 0 then f else f + 1

/-- Performance of lines 2294-2297:
`round((wins + draws*0.5) / (wins+losses+draws) * 100)`, 0 with no
completed games. -/
def performanceOf (cfg : PointValues) (db : DB) (pid : PlayerId) : ℤ :=
  let row := standingsStats cfg db pid
  let total := row.wins + row.losses + row.draws
  if 0 < total then
    pyRound (((row.wins : ℚ) + (row.draws : ℚ) * (1 / 2)) / (total : ℚ) * 100)
  else 0

def ratingOf (db : DB) (pid : PlayerId) : Int :=
  ((db.players.find? (fun p => p.id == pid)).map (·.rating)).getD 0

/-- Modelled from the spec: the performance indicator the specification
asserts for the individual standings, `avgOpponentRating +
400 × (2 × scorePct − 1)`, with the average rating of the real
opponents of the player's completed games and the score percentage of
those rows. -/
def specPerformance (cfg : PointValues) (db : DB) (pid : PlayerId) : ℚ :=
  let oppRatings : List Int := db.pairings.filterMap (fun e =>
    if e.2.result.isSome then
      if e.2.white == pid then e.2.black.map (ratingOf db)
      else if e.2.black == some pid then some (ratingOf db e.2.white)
      else none
    else none)
  let row := standingsStats cfg db pid
  let total := row.wins + row.losses + row.draws
  let avgOpp : ℚ := ((oppRatings.map (fun r => (r : ℚ))).sum) / (oppRatings.length : ℚ)
  let scorePct : ℚ := ((row.wins : ℚ) + (row.draws : ℚ) * (1 / 2)) / (total : ℚ)
  avgOpp + 400 * (2 * scorePct - 1)

/-! ## Concrete tournament states

Small states used to exercise the engine.  Ratings are distinct
throughout, scores are in half points, rounds are created the way
`start_round` creates them. -/

/-- Two players, 1500 and 1400, two scheduled rounds. -/
def baseTwo : DB :=
  ⟨[⟨1, 1500, 0⟩, ⟨2, 1400, 0⟩],
   [⟨1, 1, "ongoing"⟩, ⟨2, 2, "pending"⟩], [], [], 1, "ongoing"⟩

def twoR1 : DB := (generatePairings baseTwo 1).2
def twoR1won : DB := (recordResult twoR1 1 (some "1-0")).2
def twoR1done : DB :=
  match routeCompleteRound twoR1won 1 with
  | .ok d => d
  | .roundNotComplete => twoR1won
def twoR2 : DB := (generatePairings twoR1done 2).2

/-- Three players, 1500/1400/1300, two scheduled rounds. -/
def baseThree : DB :=
  ⟨[⟨1, 1500, 0⟩, ⟨2, 1400, 0⟩, ⟨3, 1300, 0⟩],
   [⟨1, 1, "ongoing"⟩, ⟨2, 2, "pending"⟩], [], [], 1, "ongoing"⟩

def threeR1 : DB := (generatePairings baseThree 1).2
def threeR1regen : DB := (generatePairings threeR1 1).2
def threeR1won : DB := (recordResult threeR1 2 (some "1-0")).2
def threeR1done : DB :=
  match routeCompleteRound threeR1won 1 with
  | .ok d => d
  | .roundNotComplete => threeR1won
def threeR2 : DB := (generatePairings threeR1done 2).2

/-- Four players rated 1500/1400/1300/1200 — the spec's Scenario A. -/
def baseFour : DB :=
  ⟨[⟨1, 1500, 0⟩, ⟨2, 1400, 0⟩, ⟨3, 1300, 0⟩, ⟨4, 1200, 0⟩],
   [⟨1, 1, "ongoing"⟩], [], [], 1, "upcoming"⟩

/-- The state of `baseFour` with a manual bye for the 1200-rated
player 4 in round 1: three eligible players remain. -/
def baseFourBye : DB :=
  ⟨[⟨1, 1500, 0⟩, ⟨2, 1400, 0⟩, ⟨3, 1300, 0⟩, ⟨4, 1200, 0⟩],
   [⟨1, 1, "ongoing"⟩], [], [(1, 4)], 1, "upcoming"⟩

/-- The state of `baseThree` with a manual bye for the 1300-rated
player 3 in round 1: two eligible players remain. -/
def baseThreeBye : DB :=
  ⟨[⟨1, 1500, 0⟩, ⟨2, 1400, 0⟩, ⟨3, 1300, 0⟩],
   [⟨1, 1, "ongoing"⟩, ⟨2, 2, "pending"⟩], [], [(1, 3)], 1, "ongoing"⟩

/-- Five players in a Swiss round (round number 2), with stored scores
6/6/4/2/2 half points and no recorded pairing history: every bye count
is 0 and no rematch constraint binds.  The 900-rated player 3 leads the
tail group on score. -/
def baseFive : DB :=
  ⟨[⟨1, 2000, 6⟩, ⟨2, 1900, 6⟩, ⟨3, 900, 4⟩, ⟨4, 1500, 2⟩, ⟨5, 1400, 2⟩],
   [⟨2, 2, "pending"⟩], [], [], 1, "ongoing"⟩

def fiveR2 : DB := (generatePairings baseFive 2).2

/-! ## C5 counterexample -/

def twoCleared : DB := (recordResult twoR1won 1 none).2
def twoConcluded : DB := concludeTournament twoCleared

/-! ## C3: round-1 top-half/bottom-half seeding -/

/-- The pairing rows `createFromList` inserts: ids and boards count up
from the given start values, byes are stored completed with `'1-0'`. -/
def mkRows (rid : Nat) : Nat → Nat → List (PlayerId × Option PlayerId) → List (Nat × Pairing)
  | _, _, [] => []
  | sid, board, (w, some b) :: rest =>
    (sid, ⟨rid, w, some b, board, "pending", none⟩) :: mkRows rid (sid + 1) (board + 1) rest
  | sid, board, (w, none) :: rest =>
    (sid, ⟨rid, w, none, board, "completed", some "1-0"⟩) :: mkRows rid (sid + 1) (board + 1) rest

/-! ## C8 and C9: standings tiebreaks -/

/-- The entry the stats pass appends to `pid`'s opponent list for one
pairing (assuming `white ≠ black`): the opponent (`none` for a bye) and
the pairing's completion flag. -/
def entryOf (ids : List PlayerId) (e : Nat × Pairing) (pid : PlayerId) :
    Option (Option PlayerId × Bool) :=
  match e.2.black with
  | none =>
    if e.2.white == pid && ids.contains e.2.white then
      some (none, e.2.result.isSome)
    else none
  | some bid =>
    if ids.contains e.2.white && ids.contains bid then
      if e.2.white == pid then some (some bid, e.2.result.isSome)
      else if bid == pid then some (some e.2.white, e.2.result.isSome)
      else none
    else none

def oppEntries (ids : List PlayerId) (l : List (Nat × Pairing)) (pid : PlayerId) :
    List (Option PlayerId × Bool) :=
  l.filterMap (fun e => entryOf ids e pid)

/-- Modelled from the spec: the Buchholz the specification asserts —
the sum of the current points of the opponents the player faced in
completed games, with a bye contributing half the field's average
points instead of a real opponent's score. -/
def specBuchholz (cfg : PointValues) (db : DB) (pid : PlayerId) : ℚ :=
  ((oppEntries (playerIds db) db.pairings pid).map (fun en =>
    match en with
    | (none, _) => avgPoints cfg db * (1 / 2)
    | (some opp, true) => (standingsStats cfg db opp).points
    | (some _, false) => 0)).sum

/-- Two players, one decisive completed game: used to compare the
standings performance number with the spec's Elo-style formula. -/
def basePerf : DB :=
  ⟨[⟨1, 1500, 2⟩, ⟨2, 1200, 0⟩],
   [⟨1, 1, "completed"⟩],
   [(1, ⟨1, 1, some 2, 1, "completed", some "1-0"⟩)], [], 2, "ongoing"⟩

/-- Four players, two rounds; the round-1 result of players 1-2 was
cleared while round 2 already has a completed game of player 1, so an
uncompleted game precedes a completed one in the stored pairing
order. -/
def baseBuch : DB :=
  ⟨[⟨1, 1500, 2⟩, ⟨2, 1400, 0⟩, ⟨3, 1300, 2⟩, ⟨4, 1200, 0⟩],
   [⟨1, 1, "completed"⟩, ⟨2, 2, "ongoing"⟩],
   [(1, ⟨1, 1, some 2, 1, "scheduled", none⟩),
    (2, ⟨1, 3, some 4, 2, "completed", some "1-0"⟩),
    (3, ⟨2, 1, some 3, 1, "completed", some "1-0"⟩),
    (4, ⟨2, 2, some 4, 2, "pending", none⟩)], [], 5, "ongoing"⟩

/-- The state of `basePerf` with both ratings replaced (0 and 9999):
used to show the reported performance ignores ratings entirely. -/
def basePerfAlt : DB :=
  ⟨[⟨1, 0, 2⟩, ⟨2, 9999, 0⟩],
   [⟨1, 1, "completed"⟩],
   [(1, ⟨1, 1, some 2, 1, "completed", some "1-0"⟩)], [], 2, "ongoing"⟩

/-- The state of `baseBuch` with every game completed (1-2 decisive,
2-4 drawn), so completed entries exhaust each opponent list. -/
def buchDone : DB :=
  ⟨[⟨1, 1500, 2⟩, ⟨2, 1400, 0⟩, ⟨3, 1300, 2⟩, ⟨4, 1200, 0⟩],
   [⟨1, 1, "completed"⟩, ⟨2, 2, "completed"⟩],
   [(1, ⟨1, 1, some 2, 1, "completed", some "1-0"⟩),
    (2, ⟨1, 3, some 4, 2, "completed", some "1-0"⟩),
    (3, ⟨2, 1, some 3, 1, "completed", some "1-0"⟩),
    (4, ⟨2, 2, some 4, 2, "completed", some "0.5-0.5"⟩)], [], 5, "ongoing"⟩

/-! ## Lemmas and claim theorems -/
theorem sinsert_perm {α : Type} (lt : α → α → Bool) (a : α) (l : List α) :
    (sinsert lt a l).Perm (a :: l) := by
  induction l with
  | nil => simp [sinsert]
  | cons b l ih =>
    by_cases h : lt b a
    · simpa [sinsert, h] using ((ih.cons b).trans (List.Perm.swap a b l))
    · simp [sinsert, h]

theorem ssort_perm {α : Type} (lt : α → α → Bool) (l : List α) :
    (ssort lt l).Perm l := by
  induction l with
  | nil => simp [ssort]
  | cons a l ih => exact (sinsert_perm lt a (ssort lt l)).trans (ih.cons a)

theorem mem_ssort {α : Type} (lt : α → α → Bool) {l : List α} {x : α} :
    x ∈ ssort lt l ↔ x ∈ l := (ssort_perm lt l).mem_iff

/-- Inserting preserves the "no later element strictly below an earlier
one" invariant, provided `lt` is asymmetric and its complement is
transitive (true of every lexicographic key comparison used here). -/
theorem pairwise_sinsert {α : Type} (lt : α → α → Bool)
    (hasym : ∀ x y, lt x y = true → lt y x = false)
    (hntrans : ∀ x y z, lt y x = false → lt z y = false → lt z x = false)
    (a : α) (l : List α) (h : l.Pairwise (fun x y => lt y x = false)) :
    (sinsert lt a l).Pairwise (fun x y => lt y x = false) := by
  induction l with
  | nil => simp [sinsert]
  | cons b l ih =>
    rcases List.pairwise_cons.mp h with ⟨hb, hl⟩
    by_cases hba : lt b a
    · rw [sinsert, if_pos hba]
      refine List.pairwise_cons.mpr ⟨?_, ih hl⟩
      intro y hy
      rcases List.mem_cons.mp ((sinsert_perm lt a l).mem_iff.mp hy) with hya | hyl
      · rw [hya]; exact hasym b a hba
      · exact hb y hyl
    · rw [sinsert, if_neg hba]
      refine List.pairwise_cons.mpr ⟨?_, h⟩
      intro y hy
      rcases List.mem_cons.mp hy with hyb | hyl
      · subst hyb; exact eq_false_of_ne_true hba
      · exact hntrans a b y (eq_false_of_ne_true hba) (hb y hyl)

theorem pairwise_ssort {α : Type} (lt : α → α → Bool)
    (hasym : ∀ x y, lt x y = true → lt y x = false)
    (hntrans : ∀ x y z, lt y x = false → lt z y = false → lt z x = false)
    (l : List α) :
    (ssort lt l).Pairwise (fun x y => lt y x = false) := by
  induction l with
  | nil => simp [ssort]
  | cons a l ih => exact pairwise_sinsert lt hasym hntrans a (ssort lt l) ih

/-- The head of a stably sorted list is minimal: no element of the list
is strictly below it. -/
theorem ssort_head_min {α : Type} (lt : α → α → Bool)
    (hasym : ∀ x y, lt x y = true → lt y x = false)
    (hntrans : ∀ x y z, lt y x = false → lt z y = false → lt z x = false)
    {l : List α} {b : α} {rest : List α} (hs : ssort lt l = b :: rest) :
    b ∈ l ∧ ∀ x ∈ l, lt x b = false := by
  have hperm := ssort_perm lt l
  rw [hs] at hperm
  constructor
  · exact hperm.mem_iff.mp (List.mem_cons_self b rest)
  · intro x hx
    have hpw := pairwise_ssort lt hasym hntrans l
    rw [hs] at hpw
    rcases List.pairwise_cons.mp hpw with ⟨hhead, _⟩
    rcases List.mem_cons.mp (hperm.symm.mem_iff.mp hx) with hxb | hxr
    · rw [hxb]
      by_cases hbb : lt b b
      · exact hasym b b hbb
      · exact eq_false_of_ne_true hbb
    · exact hhead x hxr

theorem pairwise_getLast_min {α : Type} (lt : α → α → Bool)
    (hasym : ∀ x y, lt x y = true → lt y x = false) :
    ∀ (s : List α) (hne : s ≠ []),
      s.Pairwise (fun x y => lt y x = false) →
      ∀ x ∈ s, lt (s.getLast hne) x = false := by
  intro s
  induction s with
  | nil => intro hne; exact absurd rfl hne
  | cons a s ih =>
    intro hne hpw x hxmem
    rcases List.pairwise_cons.mp hpw with ⟨ha, hs⟩
    rcases s with _ | ⟨b, s'⟩
    · have hxa : x = a := by simpa using hxmem
      simp only [List.getLast_singleton]
      rw [hxa]
      by_cases haa : lt a a
      · exact hasym a a haa
      · exact eq_false_of_ne_true haa
    · have hlast : (a :: b :: s').getLast hne = (b :: s').getLast (by simp) :=
        List.getLast_cons (by simp)
      rw [hlast]
      rcases List.mem_cons.mp hxmem with hxa | hxmem'
      · subst hxa
        exact ha _ (List.getLast_mem _)
      · exact ih (by simp) hs x hxmem'

/-- The last element of a stably sorted list is maximal for `lt`: it is
not strictly below any element of the list. -/
theorem ssort_getLast_max {α : Type} (lt : α → α → Bool)
    (hasym : ∀ x y, lt x y = true → lt y x = false)
    (hntrans : ∀ x y z, lt y x = false → lt z y = false → lt z x = false)
    {l : List α} (hne : ssort lt l ≠ []) :
    ∀ x ∈ l, lt ((ssort lt l).getLast hne) x = false := by
  intro x hx
  exact pairwise_getLast_min lt hasym (ssort lt l) hne
    (pairwise_ssort lt hasym hntrans l) x ((mem_ssort lt).mpr hx)

theorem swissFirstPass_eq_nil (db : DB) (players : List TPlayer) :
    swissFirstPass db players = [] := by
  unfold swissFirstPass
  cases players.getLast? with
  | none => rfl
  | some p1 => simp [List.drop_length, firstPassSearch, List.findSome?]

theorem findBestBalance_length (db : DB) (p1 : TPlayer) (w1 b1 : Int) :
    ∀ (l : List TPlayer) (r : (Int × (TPlayer × TPlayer)) × List TPlayer),
      findBestBalance db p1 w1 b1 l = some r → r.2.length + 1 = l.length := by
  intro l
  induction l with
  | nil => intro r h; simp [findBestBalance] at h
  | cons p2 rest ih =>
    intro r h
    rw [findBestBalance] at h
    rcases hrec : findBestBalance db p1 w1 b1 rest with _ | ⟨⟨cb, cpr⟩, crem⟩
    · simp only [hrec] at h
      rw [← Option.some.inj h]
      simp
    · simp only [hrec] at h
      split at h <;> rw [← Option.some.inj h]
      · simp
      · have := ih ((cb, cpr), crem) hrec
        simp at this ⊢
        omega

/-! ## C1 -/

/-- C1: the spec claims two players are never paired twice unless a
`NoValidPairingFound` outcome was explicitly overridden.  On the code,
with two players, round 1 pairs 1-2; after the result is recorded and
the round completed, generating round 2 pairs the same two players
again (colours swapped) and reports plain success — the final pairing
loop has no rematch check (the loop that has one was dedented into dead
code), and no `NoValidPairingFound` outcome exists anywhere. -/
theorem c1_rematch_without_error :
    (pairingsOfRound twoR2 1).map (fun e => (e.2.white, e.2.black)) = [(1, some 2)] ∧
    (pairingsOfRound twoR2 2).map (fun e => (e.2.white, e.2.black)) = [(2, some 1)] ∧
    (generatePairings twoR1done 2).1 = true ∧
    routeCompleteRound twoR1won 1 = .ok twoR1done := by
  refine ⟨by decide, by decide, by decide, by decide⟩

/-! ## C6 -/

/-- C6: the spec claims regenerating an incomplete round is idempotent
on the pairing set and the tournament state.  On the code, with three
players, generating round 1 twice recreates the same pairing rows
(player 1 vs 2 on board 1, bye for player 3) but `create_pairing`
awards the bye point again on every regeneration and the deletion of
the old rows does not reverse it: the bye player's score is 2.0 after
the second run instead of 1.0. -/
theorem c6_regeneration_double_awards_bye :
    (pairingsOfRound threeR1regen 1).map (fun e => (e.2.white, e.2.black, e.2.board)) =
      (pairingsOfRound threeR1 1).map (fun e => (e.2.white, e.2.black, e.2.board)) ∧
    scoreOf threeR1 3 = 2 ∧
    scoreOf threeR1regen 3 = 4 ∧
    (generatePairings threeR1 1).1 = true := by
  refine ⟨by decide, by decide, by decide, by decide⟩

/-! ## C10 -/

/-- C10: `record_result` with a pairing id that does not exist in the
pairings table returns `False` and leaves every pairing and every
player's score unchanged (the whole state is returned untouched). -/
theorem c10_record_result_missing_id (db : DB) (pid : Nat) (res : Option String)
    (h : ∀ e ∈ db.pairings, e.1 ≠ pid) :
    recordResult db pid res = (false, db) := by
  have hfind : db.pairings.find? (fun e => e.1 == pid) = none := by
    apply List.find?_eq_none.mpr
    intro e he
    simpa using h e he
  simp [recordResult, hfind]

theorem c10_record_result_missing_id_witness :
    (∀ e ∈ twoR1.pairings, e.1 ≠ 99) ∧
    recordResult twoR1 99 (some "1-0") = (false, twoR1) :=
  ⟨by decide, c10_record_result_missing_id twoR1 99 (some "1-0") (by decide)⟩

/-! ## C2 counterexample -/

/-- C2 fails on the code: with three players, round 1 gives player 1
white against player 2 (player 3 byed); after 1 beats 2 and the round
completes, round 2's "pair the top remaining players" path appends the
pair (1, 3) with player 1 as white again, ignoring colour history.
Player 1 then has 2 games as white and 0 as black: |2 − 0| > 1. -/
theorem c2_two_whites_counterexample :
    (pairingsOfRound threeR2 1).map (fun e => (e.2.white, e.2.black)) =
      [(3, none), (1, some 2)] ∧
    (pairingsOfRound threeR2 2).map (fun e => (e.2.white, e.2.black)) =
      [(1, some 3), (2, none)] ∧
    routeCompleteRound threeR1won 1 = .ok threeR1done ∧
    (generatePairings threeR1done 2).1 = true ∧
    whiteGames threeR2 1 = 2 ∧ blackGames threeR2 1 = 0 := by
  refine ⟨by decide, by decide, by decide, by decide, by decide, by decide⟩

/-- C5's "only if" direction fails on the code: record a result for the
1-2 pairing and then clear it — `record_result(None)` sets the status
to `'scheduled'`, a value `conclude_tournament`'s force-resolve UPDATE
(which filters `status = 'pending'`) does not match.  Concluding then
marks round 1 completed while its only two-player pairing still has no
result, and does not force-resolve it as a draw. -/
theorem c5_concluded_round_with_unset_pairing :
    (recordResult twoR1won 1 none).1 = true ∧
    twoCleared.pairings = [(1, ⟨1, 1, some 2, 1, "scheduled", none⟩)] ∧
    twoConcluded.rounds.all (fun r => r.status == "completed") = true ∧
    (pairingsOfRound twoConcluded 1).map (fun e => (e.2.black, e.2.result)) =
      [(some 2, none)] := by
  refine ⟨by decide, by decide, by decide, by decide⟩

/-! ## C7 counterexample -/

/-- C7 fails on the code: in `baseFive`'s Swiss round the title pair
(1, 2) is formed first, leaving players 3, 4 and 5 unpaired, all with
zero career byes.  The fewest-byes/lowest-rating rule of the claim
picks player 3 (rating 900), but the code only considers the bottom
half of the unpaired list — players 4 and 5 — and gives the bye to
player 5 (rating 1400); player 3 is then paired normally. -/
theorem c7_bye_skips_lowest_rated :
    (pairingsOfRound fiveR2 2).map (fun e => (e.2.white, e.2.black)) =
      [(1, some 2), (5, none), (4, some 3)] ∧
    (generatePairings baseFive 2).1 = true ∧
    getPlayerByeCount baseFive 3 = 0 ∧ getPlayerByeCount baseFive 5 = 0 ∧
    ratingOf baseFive 3 < ratingOf baseFive 5 := by
  refine ⟨by decide, by decide, by decide, by decide, by decide⟩

/-! ## C4: reversal correctness of record_result -/

theorem updateScore_updateScore (pl : List TPlayer) (pid : PlayerId) (d e : Int) :
    updateScore (updateScore pl pid d) pid e = updateScore pl pid (d + e) := by
  unfold updateScore
  rw [List.map_map]
  congr 1
  funext p
  by_cases h : p.id == pid <;> simp [Function.comp, h, Int.add_assoc]

theorem updateScore_zero (pl : List TPlayer) (pid : PlayerId) :
    updateScore pl pid 0 = pl := by
  unfold updateScore
  have h : ∀ p : TPlayer,
      (if p.id == pid then { p with score2 := p.score2 + 0 } else p) = p := by
    intro p
    split
    · cases p; simp
    · rfl
  simp [h]

theorem updateScore2_updateScore2 (pl : List TPlayer) (a : PlayerId)
    (b : Option PlayerId) (d e : Int) :
    updateScore2 (updateScore2 pl a b d) a b e = updateScore2 pl a b (d + e) := by
  unfold updateScore2
  rw [List.map_map]
  congr 1
  funext p
  by_cases h : (p.id == a || some p.id == b) <;> simp [Function.comp, h, Int.add_assoc]

theorem updateScore2_zero (pl : List TPlayer) (a : PlayerId) (b : Option PlayerId) :
    updateScore2 pl a b 0 = pl := by
  unfold updateScore2
  have h : ∀ p : TPlayer,
      (if p.id == a || some p.id == b then { p with score2 := p.score2 + 0 } else p) = p := by
    intro p
    split
    · cases p; simp
    · rfl
  simp [h]

/-- Reversing a result immediately after applying it restores the
score column exactly: the subtraction block mirrors the addition
block result by result. -/
theorem reversePoints_applyPoints (pl : List TPlayer) (w : PlayerId)
    (b : Option PlayerId) (r : Option String) :
    reversePoints (applyPoints pl w b r) w b r = pl := by
  cases r with
  | none => rfl
  | some s =>
    unfold applyPoints reversePoints
    by_cases h1 : s == "1-0"
    · simp [h1, updateScore_updateScore, updateScore_zero,
        show (2 : ℤ) + -2 = 0 from by decide]
    · by_cases h2 : s == "0-1"
      · cases b with
        | none => simp [h1, h2]
        | some bb =>
          simp [h1, h2, updateScore_updateScore, updateScore_zero,
            show (2 : ℤ) + -2 = 0 from by decide]
      · by_cases h3 : s == "0.5-0.5"
        · simp [h1, h2, h3, updateScore2_updateScore2, updateScore2_zero,
            show (1 : ℤ) + -1 = 0 from by decide]
        · simp [h1, h2, h3]

/-- Overwriting the stored result twice is the same row update as
doing it once. -/
theorem setPairingResult_setPairingResult (l : List (Nat × Pairing)) (pid : Nat)
    (r1 r2 : Option String) :
    setPairingResult (setPairingResult l pid r1) pid r2 = setPairingResult l pid r2 := by
  unfold setPairingResult
  rw [List.map_map]
  congr 1
  funext e2
  by_cases h : e2.1 == pid <;> simp [Function.comp, h]

theorem find?_setPairingResult (l : List (Nat × Pairing)) (pid : Nat)
    (res : Option String) (e : Nat × Pairing)
    (hfind : l.find? (fun x => x.1 == pid) = some e) :
    (setPairingResult l pid res).find? (fun x => x.1 == pid) =
      some (e.1,
        { e.2 with
          result := res
          status := (match res with | none => "scheduled" | some _ => "completed") }) := by
  have hpid : (e.1 == pid) = true :=
    @List.find?_some _ (fun x : Nat × Pairing => x.1 == pid) e l hfind
  unfold setPairingResult
  rw [List.find?_map]
  have hpred : ((fun x : Nat × Pairing => x.1 == pid) ∘ (fun e2 : Nat × Pairing =>
      if e2.1 == pid then
        (e2.1,
          { e2.2 with
            result := res
            status := (match res with | none => "scheduled" | some _ => "completed") })
      else e2)) = fun x : Nat × Pairing => x.1 == pid := by
    funext x
    by_cases h : x.1 == pid <;> simp [Function.comp, h]
  rw [hpred, hfind]
  simp [hpid]
  intro h
  exact absurd (by simpa using hpid) h

/-- C4: for an existing two-player pairing and results from the
vocabulary {1-0, 0-1, draw, unset}, recording `r1` and then `r2` yields
exactly the state a single `r2` call would have produced (the previous
contribution is reversed before the new points are applied); recording
unset clears the row back to no result with status `'scheduled'`, and
reverses the prior contribution (with no prior result it leaves every
score unchanged). -/
theorem c4_record_result_reversal (db : DB) (pid : Nat) (e : Nat × Pairing)
    (hfind : db.pairings.find? (fun x => x.1 == pid) = some e)
    (hreal : e.2.black ≠ none)
    (r1 r2 : Option String)
    (h1 : r1 ∈ [some "1-0", some "0-1", some "0.5-0.5", none])
    (h2 : r2 ∈ [some "1-0", some "0-1", some "0.5-0.5", none]) :
    recordResult (recordResult db pid r1).2 pid r2 = recordResult db pid r2 ∧
    (∃ p', (recordResult db pid none).2.pairings.find? (fun x => x.1 == pid) = some p' ∧
      p'.2.result = none ∧ p'.2.status = "scheduled") ∧
    (e.2.result = none → (recordResult db pid none).2.players = db.players) := by
  refine ⟨?_, ?_, ?_⟩
  · have hinner : recordResult db pid r1 =
        (true, { db with
          players := applyPoints (reversePoints db.players e.2.white e.2.black e.2.result)
            e.2.white e.2.black r1,
          pairings := setPairingResult db.pairings pid r1 }) := by
      rw [recordResult, hfind]
    have hfind2 := find?_setPairingResult db.pairings pid r1 e hfind
    rw [hinner]
    rw [recordResult, recordResult, hfind, hfind2]
    simp only [Prod.mk.injEq, true_and]
    congr 1
    · rw [reversePoints_applyPoints]
    · exact setPairingResult_setPairingResult db.pairings pid r1 r2
  · refine ⟨(e.1,
      { e.2 with result := none, status := "scheduled" }), ?_, rfl, rfl⟩
    rw [recordResult, hfind]
    exact find?_setPairingResult db.pairings pid none e hfind
  · intro hres
    rw [recordResult, hfind]
    simp [hres, reversePoints, applyPoints]

theorem c4_record_result_reversal_witness :
    twoR1.pairings.find? (fun x => x.1 == 1) =
        some (1, ⟨1, 1, some 2, 1, "pending", none⟩) ∧
    (recordResult (recordResult twoR1 1 (some "1-0")).2 1 (some "0-1") =
        recordResult twoR1 1 (some "0-1") ∧
      (∃ p', (recordResult twoR1 1 none).2.pairings.find? (fun x => x.1 == 1) = some p' ∧
        p'.2.result = none ∧ p'.2.status = "scheduled") ∧
      ((1, (⟨1, 1, some 2, 1, "pending", none⟩ : Pairing)).2.result = none →
        (recordResult twoR1 1 none).2.players = twoR1.players)) :=
  ⟨by decide,
   c4_record_result_reversal twoR1 1 (1, ⟨1, 1, some 2, 1, "pending", none⟩)
     (by decide) (by decide) (some "1-0") (some "0-1") (by decide) (by decide)⟩

/-! ## C5 amended -/

/-- C5 amended: completing a round through the route succeeds — marking
the round completed — exactly when every pairing of the round with a
real black player carries a result, and fails with the
`RoundNotComplete` outcome (state untouched) otherwise; concluding the
tournament marks every round completed and force-resolves every
pairing that is awaiting its first result (status `'pending'`, no
result) as a draw.  A pairing whose result was cleared (status
`'scheduled'`) is not covered by the force-resolve, so the
"completed iff all results set" equivalence of the original claim
fails for it. -/
theorem c5_round_completion_amended (db : DB) (rid : Nat) :
    ((pairingsOfRound db rid).all (fun e => e.2.black == none || e.2.result.isSome) = true →
      ∃ db', routeCompleteRound db rid = .ok db' ∧
        ∀ r ∈ db'.rounds, r.id = rid → r.status = "completed") ∧
    ((pairingsOfRound db rid).all (fun e => e.2.black == none || e.2.result.isSome) = false →
      routeCompleteRound db rid = .roundNotComplete) ∧
    (∀ r ∈ (concludeTournament db).rounds, r.status = "completed") ∧
    (∀ e ∈ db.pairings, e.2.status = "pending" → e.2.result = none →
      (e.1, { e.2 with status := "completed", result := some "0.5-0.5" }) ∈
        (concludeTournament db).pairings) := by
  refine ⟨?_, ?_, ?_, ?_⟩
  · intro hall
    refine ⟨(completeRound db rid).2, ?_, ?_⟩
    · simp [routeCompleteRound, hall]
    · intro r hr hrid
      unfold completeRound at hr
      rcases hfound : db.rounds.find? (fun r0 => r0.id == rid) with _ | r0
      · rw [hfound] at hr
        have := List.find?_eq_none.mp hfound r hr
        simp [hrid] at this
      · rw [hfound] at hr
        simp only [updateTournamentStatus] at hr
        split at hr <;>
          · simp only [List.mem_map] at hr
            rcases hr with ⟨r1, hr1, hr1eq⟩
            by_cases h : r1.id == rid
            · rw [← hr1eq]
              simp [h]
            · rw [← hr1eq] at hrid ⊢
              simp [h] at hrid ⊢
              exact absurd hrid (by simpa using h)
  · intro hall
    simp [routeCompleteRound, hall]
  · intro r hr
    unfold concludeTournament at hr
    simp only [List.mem_map] at hr
    rcases hr with ⟨r1, _, hr1eq⟩
    by_cases h : r1.status != "completed"
    · rw [← hr1eq]; simp [h]
    · rw [← hr1eq]
      simp only [h, if_neg]
      simp at h
      simpa [h] using h
  · intro e he hst hres
    unfold concludeTournament
    simp only [List.mem_map]
    refine ⟨e, he, ?_⟩
    simp [hst, hres]

theorem c5_round_completion_amended_witness :
    (pairingsOfRound twoR1won 1).all
        (fun e => e.2.black == none || e.2.result.isSome) = true ∧
    (∃ db', routeCompleteRound twoR1won 1 = .ok db' ∧
      ∀ r ∈ db'.rounds, r.id = 1 → r.status = "completed") ∧
    ((1, (⟨1, 1, some 2, 1, "pending", none⟩ : Pairing)) ∈ twoR1.pairings →
      (1, (⟨1, 1, some 2, 1, "completed", some "0.5-0.5"⟩ : Pairing)) ∈
        (concludeTournament twoR1).pairings) :=
  ⟨by decide,
   (c5_round_completion_amended twoR1won 1).1 (by decide),
   fun hmem => by
     have h := (c5_round_completion_amended twoR1 1).2.2.2
       (1, (⟨1, 1, some 2, 1, "pending", none⟩ : Pairing)) hmem rfl rfl
     exact h⟩

/-! ## C7 amended -/

theorem byeEligible_ne_nil {unpaired : List TPlayer} (h : unpaired ≠ []) :
    byeEligible unpaired ≠ [] := by
  unfold byeEligible
  by_cases he : (byeEligiblePool unpaired).isEmpty
  · rw [if_pos he]; exact h
  · rw [if_neg he]
    intro hc
    exact he (by rw [hc]; rfl)

/-- C7 amended: whenever the Swiss branch assigns an automatic bye,
the recipient is the member of the eligible pool — the bottom half of
the unpaired list when more than one player remains, the whole list
otherwise — with the fewest career byes, ties broken by lowest rating,
and the choice is the deterministic head of a stable sort.  The top
half of the unpaired list is excluded from bye consideration, which is
where the original claim (quantifying over all unpaired players)
fails. -/
theorem c7_bye_pick_amended (db : DB) (unpaired : List TPlayer)
    (hne : unpaired ≠ []) :
    ∃ b, swissByePick db unpaired = some b ∧ b ∈ byeEligible unpaired ∧
      ∀ p ∈ byeEligible unpaired,
        getPlayerByeCount db b.id < getPlayerByeCount db p.id ∨
        (getPlayerByeCount db b.id = getPlayerByeCount db p.id ∧ b.rating ≤ p.rating) := by
  have hasym : ∀ x y, byeLt db x y = true → byeLt db y x = false := by
    intro x y h
    simp only [byeLt, Bool.or_eq_true, Bool.and_eq_true, decide_eq_true_eq,
      beq_iff_eq] at h
    simp only [byeLt, Bool.or_eq_false_iff, Bool.and_eq_false_iff,
      decide_eq_false_iff_not, beq_eq_false_iff_ne, ne_eq]
    constructor
    · omega
    · by_cases hc : getPlayerByeCount db y.id = getPlayerByeCount db x.id
      · right; omega
      · left; simpa using hc
  have hntrans : ∀ x y z, byeLt db y x = false → byeLt db z y = false →
      byeLt db z x = false := by
    intro x y z h1 h2
    simp only [byeLt, Bool.or_eq_false_iff, Bool.and_eq_false_iff,
      decide_eq_false_iff_not, beq_eq_false_iff_ne, ne_eq] at h1 h2 ⊢
    rcases h1 with ⟨h1a, h1b⟩
    rcases h2 with ⟨h2a, h2b⟩
    refine ⟨by omega, ?_⟩
    by_cases hc : getPlayerByeCount db z.id = getPlayerByeCount db x.id
    · right
      rcases h1b with h1b | h1b <;> rcases h2b with h2b | h2b <;> omega
    · left; simpa using hc
  have hne2 : byeEligible unpaired ≠ [] := byeEligible_ne_nil hne
  rcases hs : ssort (byeLt db) (byeEligible unpaired) with _ | ⟨b, rest⟩
  · exfalso
    have := (ssort_perm (byeLt db) (byeEligible unpaired)).length_eq
    rw [hs] at this
    exact hne2 (List.length_eq_zero.mp this.symm)
  · have hmin := ssort_head_min (byeLt db) hasym hntrans hs
    refine ⟨b, ?_, hmin.1, ?_⟩
    · simp [swissByePick, hs]
    · intro p hp
      have := hmin.2 p hp
      simp only [byeLt, Bool.or_eq_false_iff, Bool.and_eq_false_iff,
        decide_eq_false_iff_not, beq_eq_false_iff_ne, ne_eq] at this
      rcases this with ⟨ha, hb⟩
      by_cases hc : getPlayerByeCount db b.id = getPlayerByeCount db p.id
      · right
        refine ⟨hc, ?_⟩
        rcases hb with hb | hb
        · omega
        · omega
      · left; omega

theorem c7_bye_pick_amended_witness :
    ([⟨4, 1500, 2⟩, ⟨5, 1400, 2⟩] : List TPlayer) ≠ [] ∧
    (∃ b, swissByePick baseFive [⟨4, 1500, 2⟩, ⟨5, 1400, 2⟩] = some b ∧
      b ∈ byeEligible [⟨4, 1500, 2⟩, ⟨5, 1400, 2⟩] ∧
      ∀ p ∈ byeEligible [⟨4, 1500, 2⟩, ⟨5, 1400, 2⟩],
        getPlayerByeCount baseFive b.id < getPlayerByeCount baseFive p.id ∨
        (getPlayerByeCount baseFive b.id = getPlayerByeCount baseFive p.id ∧
          b.rating ≤ p.rating)) :=
  ⟨by decide,
   c7_bye_pick_amended baseFive [⟨4, 1500, 2⟩, ⟨5, 1400, 2⟩] (by decide)⟩

theorem createFromList_pairings (rid : Nat) :
    ∀ (l : List (PlayerId × Option PlayerId)) (db : DB) (board : Nat),
      (createFromList rid db board l).pairings =
        db.pairings ++ mkRows rid db.nextPairingId board l := by
  intro l
  induction l with
  | nil => intro db board; simp [createFromList, mkRows]
  | cons pr rest ih =>
    intro db board
    rcases pr with ⟨w, b⟩
    cases b with
    | none =>
      rw [createFromList, ih]
      simp [createPairing, mkRows]
    | some bb =>
      rw [createFromList, ih]
      simp [createPairing, mkRows]

theorem createFromList_players (rid : Nat) :
    ∀ (l : List (PlayerId × Option PlayerId)) (db : DB) (board : Nat),
      (∀ pr ∈ l, pr.2 ≠ none) →
      (createFromList rid db board l).players = db.players := by
  intro l
  induction l with
  | nil => intro db board _; rfl
  | cons pr rest ih =>
    intro db board hall
    rcases pr with ⟨w, b⟩
    cases b with
    | none => exact absurd rfl (hall (w, none) (by simp))
    | some bb =>
      rw [createFromList, ih _ _ (fun x hx => hall x (by simp [hx]))]
      rfl

theorem mkRows_filter_round (rid : Nat) :
    ∀ (l : List (PlayerId × Option PlayerId)) (sid board : Nat),
      (mkRows rid sid board l).filter (fun e => e.2.roundId == rid) =
        mkRows rid sid board l := by
  intro l
  induction l with
  | nil => intro sid board; rfl
  | cons pr rest ih =>
    intro sid board
    rcases pr with ⟨w, b⟩
    cases b with
    | none => simp [mkRows, List.filter_cons, ih]
    | some bb => simp [mkRows, List.filter_cons, ih]

theorem mkRows_some_real (rid : Nat) :
    ∀ (l : List (PlayerId × Option PlayerId)) (sid board : Nat),
      (∀ pr ∈ l, pr.2 ≠ none) →
      ((mkRows rid sid board l).filter
          (fun e => e.2.black != none)).map (fun e => (e.2.white, e.2.black)) = l := by
  intro l
  induction l with
  | nil => intro sid board _; rfl
  | cons pr rest ih =>
    intro sid board hall
    rcases pr with ⟨w, b⟩
    cases b with
    | none => exact absurd rfl (hall (w, none) (by simp))
    | some bb =>
      simp only [mkRows, List.filter_cons,
        show ((some bb : Option PlayerId) != none) = true from rfl, if_true,
        List.map_cons]
      rw [ih _ _ (fun x hx => hall x (by simp [hx]))]

theorem mkRows_mem_black (rid : Nat) :
    ∀ (l : List (PlayerId × Option PlayerId)) (sid board : Nat),
      (∀ pr ∈ l, pr.2 ≠ none) →
      ∀ e ∈ mkRows rid sid board l, e.2.black ≠ none := by
  intro l
  induction l with
  | nil => intro sid board _ e he; cases he
  | cons pr rest ih =>
    intro sid board hall e he
    rcases pr with ⟨w, b⟩
    cases b with
    | none => exact absurd rfl (hall (w, none) (by simp))
    | some bb =>
      rcases List.mem_cons.mp he with heq | hmem
      · rw [heq]; simp
      · exact ih _ _ (fun x hx => hall x (by simp [hx])) e hmem

theorem old_round_rows_gone (rid : Nat) (l : List (Nat × Pairing)) :
    (l.filter (fun e => e.2.roundId != rid)).filter (fun e => e.2.roundId == rid) = [] := by
  rw [List.filter_filter]
  apply List.filter_eq_nil.mpr
  intro e _
  by_cases h : e.2.roundId == rid
  · simp only [h]
    simp
    exact beq_iff_eq.mp h
  · simp [h]

/-- Evaluation of `generate_pairings` on a round numbered 1 with at
least two eligible players and no manual byes: delete the round's
rows, optionally create the bye for the last player of the
rating-descending sort, then create the top-half/bottom-half pairs on
boards 1, 2, ... and mark the round in progress. -/
theorem generatePairings_round1_eq (db : DB) (rid : Nat)
    (hnum : roundNumberOf db rid = some 1)
    (hlen2 : ¬ (getTournamentPlayersWithScores db).length < 2)
    (hbyes : manualByeIdsForRound db 1 = []) :
    generatePairings db rid =
      (true,
        setRoundInProgress
          (createFromList rid
            (if (ssort ratingDescLt (getTournamentPlayersWithScores db)).length % 2 != 0 then
              match (ssort ratingDescLt (getTournamentPlayersWithScores db)).getLast? with
              | some bp =>
                createPairing
                  { db with pairings := db.pairings.filter (fun e => e.2.roundId != rid) }
                  rid bp.id none
                  (maxBoardOfRound
                    { db with pairings := db.pairings.filter (fun e => e.2.roundId != rid) }
                    rid + 1)
              | none =>
                { db with pairings := db.pairings.filter (fun e => e.2.roundId != rid) }
            else
              { db with pairings := db.pairings.filter (fun e => e.2.roundId != rid) })
            1
            ((round1Pairs (ssort ratingDescLt (getTournamentPlayersWithScores db))).map
              (fun pr => (pr.1.id, some pr.2.id))))
          rid) := by
  rw [generatePairings]
  rw [if_neg hlen2, hnum]
  have hmb : manualByeIdsForRound
      { db with pairings := db.pairings.filter (fun e => e.2.roundId != rid) } 1 =
      manualByeIdsForRound db 1 := rfl
  simp only [hmb, hbyes, beq_self_eq_true, if_true, createManualByes, List.foldl_nil,
    List.isEmpty_nil, Bool.and_true]
  have hfil2 : List.filter (fun p : TPlayer => !([] : List PlayerId).contains p.id)
      (getTournamentPlayersWithScores db) = getTournamentPlayersWithScores db := by
    simp
  rw [hfil2]

/-- Shape of the manual-bye creation loop (lines 1179-1198): it
appends one NULL-black row of this round per manually byed player
present in the player list to the existing pairing table. -/
theorem createManualByes_shape (rid : Nat) :
    ∀ (byeIds : List PlayerId) (db : DB) (players : List TPlayer),
      ∃ pre : List (Nat × Pairing),
        (createManualByes db rid byeIds players).pairings = db.pairings ++ pre ∧
        ∀ e ∈ pre, e.2.roundId = rid ∧ e.2.black = none ∧ e.2.white ∈ byeIds := by
  intro byeIds
  induction byeIds with
  | nil =>
    intro db players
    exact ⟨[], by simp [createManualByes], by simp⟩
  | cons pid rest ih =>
    intro db players
    have hstep : createManualByes db rid (pid :: rest) players =
        createManualByes
          (if players.any (fun p => p.id == pid) then
            createPairing db rid pid none (maxBoardOfRound db rid + 1)
          else db) rid rest players := rfl
    by_cases hin : players.any (fun p => p.id == pid)
    · rw [hstep, if_pos hin]
      obtain ⟨pre', hp', hprop'⟩ :=
        ih (createPairing db rid pid none (maxBoardOfRound db rid + 1)) players
      refine ⟨(db.nextPairingId,
          ⟨rid, pid, none, maxBoardOfRound db rid + 1, "completed", some "1-0"⟩) :: pre',
        ?_, ?_⟩
      · rw [hp']
        simp [createPairing]
      · intro e he
        rcases List.mem_cons.mp he with heq | hmem
        · rw [heq]
          exact ⟨rfl, rfl, by simp⟩
        · obtain ⟨h1, h2, h3⟩ := hprop' e hmem
          exact ⟨h1, h2, by simp [h3]⟩
    · rw [hstep, if_neg hin]
      obtain ⟨pre', hp', hprop'⟩ := ih db players
      refine ⟨pre', hp', ?_⟩
      intro e he
      obtain ⟨h1, h2, h3⟩ := hprop' e he
      exact ⟨h1, h2, by simp [h3]⟩

/-- Evaluation of `generate_pairings` on a round numbered 1 with at
least two players and arbitrary manual byes: delete the round's rows,
create the manual-bye rows, sort the remaining ELIGIBLE players by
rating descending, optionally create the automatic bye (only when the
eligible count is odd and no manual bye exists), then create the
top-half/bottom-half pairs on boards 1, 2, ... and mark the round in
progress. -/
theorem generatePairings_round1_eq2 (db : DB) (rid : Nat)
    (hnum : roundNumberOf db rid = some 1)
    (hlen2 : ¬ (getTournamentPlayersWithScores db).length < 2) :
    generatePairings db rid =
      (true,
        setRoundInProgress
          (createFromList rid
            (if ((ssort ratingDescLt ((getTournamentPlayersWithScores db).filter
                  (fun p => !((manualByeIdsForRound db 1).contains p.id)))).length % 2 != 0)
                && (manualByeIdsForRound db 1).isEmpty then
              match (ssort ratingDescLt ((getTournamentPlayersWithScores db).filter
                  (fun p => !((manualByeIdsForRound db 1).contains p.id)))).getLast? with
              | some bp =>
                createPairing
                  (createManualByes
                    { db with pairings := db.pairings.filter (fun e => e.2.roundId != rid) }
                    rid (manualByeIdsForRound db 1) (getTournamentPlayersWithScores db))
                  rid bp.id none
                  (maxBoardOfRound
                    (createManualByes
                      { db with pairings := db.pairings.filter (fun e => e.2.roundId != rid) }
                      rid (manualByeIdsForRound db 1) (getTournamentPlayersWithScores db))
                    rid + 1)
              | none =>
                createManualByes
                  { db with pairings := db.pairings.filter (fun e => e.2.roundId != rid) }
                  rid (manualByeIdsForRound db 1) (getTournamentPlayersWithScores db)
            else
              createManualByes
                { db with pairings := db.pairings.filter (fun e => e.2.roundId != rid) }
                rid (manualByeIdsForRound db 1) (getTournamentPlayersWithScores db))
            1
            ((round1Pairs (ssort ratingDescLt ((getTournamentPlayersWithScores db).filter
                (fun p => !((manualByeIdsForRound db 1).contains p.id))))).map
              (fun pr => (pr.1.id, some pr.2.id))))
          rid) := by
  rw [generatePairings, if_neg hlen2, hnum]
  rfl

/-- A round-1 generation decomposes into the surviving other-round
rows, a block of NULL-black bye rows (the manual byes, plus the
automatic bye only when no manual bye exists), and the `round1Pairs`
real rows over the eligible players. -/
theorem round1_rows_shape (db : DB) (rid : Nat)
    (hnum : roundNumberOf db rid = some 1)
    (hlen2 : ¬ (getTournamentPlayersWithScores db).length < 2) :
    ∃ (pre : List (Nat × Pairing)) (sid : Nat),
      (generatePairings db rid).1 = true ∧
      (generatePairings db rid).2.pairings =
        db.pairings.filter (fun e => e.2.roundId != rid) ++ (pre ++
          mkRows rid sid 1
            ((round1Pairs (ssort ratingDescLt ((getTournamentPlayersWithScores db).filter
              (fun p => !((manualByeIdsForRound db 1).contains p.id))))).map
              (fun pr => (pr.1.id, some pr.2.id)))) ∧
      (∀ e ∈ pre, e.2.roundId = rid ∧ e.2.black = none ∧
        (manualByeIdsForRound db 1 = [] ∨ e.2.white ∈ manualByeIdsForRound db 1)) := by
  have hgen := generatePairings_round1_eq2 db rid hnum hlen2
  obtain ⟨preM, hpM, hpropM⟩ := createManualByes_shape rid (manualByeIdsForRound db 1)
    { db with pairings := db.pairings.filter (fun e => e.2.roundId != rid) }
    (getTournamentPlayersWithScores db)
  have hflag : (generatePairings db rid).1 = true := by rw [hgen]
  have hpropPre : ∀ e ∈ preM, e.2.roundId = rid ∧ e.2.black = none ∧
      (manualByeIdsForRound db 1 = [] ∨ e.2.white ∈ manualByeIdsForRound db 1) := by
    intro e he
    obtain ⟨h1, h2, h3⟩ := hpropM e he
    exact ⟨h1, h2, Or.inr h3⟩
  by_cases hcond : (((ssort ratingDescLt ((getTournamentPlayersWithScores db).filter
        (fun p => !((manualByeIdsForRound db 1).contains p.id)))).length % 2 != 0)
      && (manualByeIdsForRound db 1).isEmpty) = true
  · have hcond2 := hcond
    rw [Bool.and_eq_true] at hcond2
    have hbe : manualByeIdsForRound db 1 = [] := by
      have h2 := hcond2.2
      simpa using h2
    have hodd := hcond2.1
    have hSne : ssort ratingDescLt ((getTournamentPlayersWithScores db).filter
        (fun p => !((manualByeIdsForRound db 1).contains p.id))) ≠ [] := by
      intro hc
      rw [hc] at hodd
      simp at hodd
    have hgl : (ssort ratingDescLt ((getTournamentPlayersWithScores db).filter
        (fun p => !((manualByeIdsForRound db 1).contains p.id)))).getLast? =
        some ((ssort ratingDescLt ((getTournamentPlayersWithScores db).filter
          (fun p => !((manualByeIdsForRound db 1).contains p.id)))).getLast hSne) :=
      List.getLast?_eq_getLast _ hSne
    refine ⟨preM ++ [((createManualByes
          { db with pairings := db.pairings.filter (fun e => e.2.roundId != rid) }
          rid (manualByeIdsForRound db 1) (getTournamentPlayersWithScores db)).nextPairingId,
        ⟨rid, ((ssort ratingDescLt ((getTournamentPlayersWithScores db).filter
            (fun p => !((manualByeIdsForRound db 1).contains p.id)))).getLast hSne).id, none,
          maxBoardOfRound (createManualByes
            { db with pairings := db.pairings.filter (fun e => e.2.roundId != rid) }
            rid (manualByeIdsForRound db 1) (getTournamentPlayersWithScores db)) rid + 1,
          "completed", some "1-0"⟩)],
      (createManualByes
          { db with pairings := db.pairings.filter (fun e => e.2.roundId != rid) }
          rid (manualByeIdsForRound db 1) (getTournamentPlayersWithScores db)).nextPairingId + 1,
      hflag, ?_, ?_⟩
    · rw [hgen]
      rw [if_pos hcond, hgl]
      simp only [createPairing, setRoundInProgress]
      rw [createFromList_pairings]
      rw [hpM]
      simp [List.append_assoc]
    · intro e he
      rcases List.mem_append.mp he with hm | hs
      · exact hpropPre e hm
      · rw [List.mem_singleton.mp hs]
        exact ⟨rfl, rfl, Or.inl hbe⟩
  · refine ⟨preM, (createManualByes
        { db with pairings := db.pairings.filter (fun e => e.2.roundId != rid) }
        rid (manualByeIdsForRound db 1) (getTournamentPlayersWithScores db)).nextPairingId,
      hflag, ?_, hpropPre⟩
    rw [hgen, if_neg hcond]
    simp only [setRoundInProgress]
    rw [createFromList_pairings, hpM]
    simp [List.append_assoc]

/-- C3: for round 1 with at least two players, the generated real
pairings are exactly index `i` of the top half of the rating-descending
sorted list of the ELIGIBLE (non-manually-byed) players against index
`i` of the bottom half (`round1Pairs`); with no manual byes and an odd
count the last element of that sorted list — a player of minimal
rating — receives the bye; with no manual byes and an even count no
bye row is created; and with manual byes present every NULL-black row
belongs to a manually byed player, so no automatic bye is assigned.
Instantiated at 4 players rated 1500/1400/1300/1200 this yields exactly
(1500 vs 1300) and (1400 vs 1200), the spec's Scenario A. -/
theorem c3_round1_seeding (db : DB) (rid : Nat)
    (hnum : roundNumberOf db rid = some 1)
    (hlen : 2 ≤ (getTournamentPlayersWithScores db).length) :
    (generatePairings db rid).1 = true ∧
    (((pairingsOfRound (generatePairings db rid).2 rid).filter
        (fun e => e.2.black != none)).map (fun e => (e.2.white, e.2.black)) =
      (round1Pairs (ssort ratingDescLt ((getTournamentPlayersWithScores db).filter
        (fun p => !((manualByeIdsForRound db 1).contains p.id))))).map
        (fun pr => (pr.1.id, some pr.2.id))) ∧
    (manualByeIdsForRound db 1 = [] →
      (ssort ratingDescLt (getTournamentPlayersWithScores db)).length % 2 = 1 →
      ∃ bp, ∃ hne : ssort ratingDescLt (getTournamentPlayersWithScores db) ≠ [],
        bp = (ssort ratingDescLt (getTournamentPlayersWithScores db)).getLast hne ∧
        (∃ e ∈ pairingsOfRound (generatePairings db rid).2 rid,
          e.2.black = none ∧ e.2.white = bp.id) ∧
        ∀ p ∈ db.players, bp.rating ≤ p.rating) ∧
    (manualByeIdsForRound db 1 = [] →
      (ssort ratingDescLt (getTournamentPlayersWithScores db)).length % 2 = 0 →
      ∀ e ∈ pairingsOfRound (generatePairings db rid).2 rid, e.2.black ≠ none) ∧
    (manualByeIdsForRound db 1 ≠ [] →
      ∀ e ∈ pairingsOfRound (generatePairings db rid).2 rid,
        e.2.black = none → e.2.white ∈ manualByeIdsForRound db 1) := by
  have hlen2 : ¬ (getTournamentPlayersWithScores db).length < 2 := by omega
  have hrealList : ∀ pr ∈ (round1Pairs (ssort ratingDescLt
      ((getTournamentPlayersWithScores db).filter
        (fun p => !((manualByeIdsForRound db 1).contains p.id))))).map
        (fun pr => (pr.1.id, some pr.2.id)), pr.2 ≠ (none : Option PlayerId) := by
    intro pr hpr
    rcases List.mem_map.mp hpr with ⟨x, _, hx⟩
    rw [← hx]
    simp
  obtain ⟨pre, sid, hflag, hrows, hprop⟩ := round1_rows_shape db rid hnum hlen2
  have hpreKeep : pre.filter (fun e => e.2.roundId == rid) = pre :=
    List.filter_eq_self.2 (fun e he => by simp [(hprop e he).1])
  have hpr : (generatePairings db rid).2.pairings.filter (fun e => e.2.roundId == rid) =
      pre ++ mkRows rid sid 1
        ((round1Pairs (ssort ratingDescLt ((getTournamentPlayersWithScores db).filter
          (fun p => !((manualByeIdsForRound db 1).contains p.id))))).map
          (fun pr => (pr.1.id, some pr.2.id))) := by
    rw [hrows, List.filter_append, List.filter_append, old_round_rows_gone,
      mkRows_filter_round, hpreKeep, List.nil_append]
  refine ⟨hflag, ?_, ?_, ?_, ?_⟩
  · simp only [pairingsOfRound]
    rw [hpr, List.filter_append, List.map_append]
    have hpreDrop : pre.filter (fun e => e.2.black != none) = [] :=
      List.filter_eq_nil_iff.2 (fun e he => by simp [(hprop e he).2.1])
    rw [hpreDrop]
    simp only [List.map_nil, List.nil_append]
    exact mkRows_some_real rid _ _ _ hrealList
  · intro hbyes hodd
    have hgen := generatePairings_round1_eq db rid hnum hlen2 hbyes
    have hSne : ssort ratingDescLt (getTournamentPlayersWithScores db) ≠ [] := by
      intro hc
      rw [hc] at hodd
      simp at hodd
    have hgl : (ssort ratingDescLt (getTournamentPlayersWithScores db)).getLast? =
        some ((ssort ratingDescLt (getTournamentPlayersWithScores db)).getLast hSne) :=
      List.getLast?_eq_getLast _ hSne
    refine ⟨(ssort ratingDescLt (getTournamentPlayersWithScores db)).getLast hSne,
      hSne, rfl, ?_, ?_⟩
    · rw [hgen]
      have hcondT : ((((ssort ratingDescLt
          (getTournamentPlayersWithScores db)).length % 2) != 0) = true) := by
        simp [hodd]
      rw [if_pos hcondT]
      simp only [hgl, createPairing]
      simp only [pairingsOfRound, setRoundInProgress]
      rw [createFromList_pairings]
      refine ⟨_, List.mem_filter.mpr
        ⟨List.mem_append_left _ (List.mem_append_right _ (List.mem_singleton_self _)), ?_⟩,
        rfl, rfl⟩
      simp
    · intro p hp
      have hasymR : ∀ x y : TPlayer, ratingDescLt x y = true → ratingDescLt y x = false := by
        intro x y h
        simp only [ratingDescLt, decide_eq_true_eq] at h
        simp only [ratingDescLt, decide_eq_false_iff_not]
        omega
      have hntransR : ∀ x y z : TPlayer, ratingDescLt y x = false →
          ratingDescLt z y = false → ratingDescLt z x = false := by
        intro x y z h1 h2
        simp only [ratingDescLt, decide_eq_false_iff_not] at h1 h2 ⊢
        omega
      have hmem : p ∈ getTournamentPlayersWithScores db := (mem_ssort swissLt).mpr hp
      have hlast := ssort_getLast_max ratingDescLt hasymR hntransR hSne p hmem
      simp only [ratingDescLt, decide_eq_false_iff_not] at hlast
      omega
  · intro hbyes heven e hmem
    have hgen := generatePairings_round1_eq db rid hnum hlen2 hbyes
    rw [hgen] at hmem
    have hcondF : ¬ ((((ssort ratingDescLt
        (getTournamentPlayersWithScores db)).length % 2) != 0) = true) := by
      simp [heven]
    rw [if_neg hcondF] at hmem
    simp only [pairingsOfRound, setRoundInProgress] at hmem
    rw [createFromList_pairings] at hmem
    simp only [List.filter_append] at hmem
    rw [old_round_rows_gone, mkRows_filter_round] at hmem
    simp only [List.nil_append] at hmem
    have hfilid : (getTournamentPlayersWithScores db).filter
        (fun p => !((manualByeIdsForRound db 1).contains p.id)) =
        getTournamentPlayersWithScores db := by
      rw [hbyes]
      simp
    rw [← hfilid] at hmem
    exact mkRows_mem_black rid _ _ _ hrealList e hmem
  · intro hbne e hmem hblack
    simp only [pairingsOfRound] at hmem
    rw [hpr] at hmem
    rcases List.mem_append.mp hmem with hm | hk
    · rcases (hprop e hm).2.2 with hl | hr
      · exact absurd hl hbne
      · exact hr
    · exact absurd hblack (mkRows_mem_black rid _ _ _ hrealList e hk)

/-- C3, witnessed twice: on `baseFour` (no manual byes) the real rows
are (1500 vs 1300) and (1400 vs 1200); on `baseFourBye` (player 4
manually byed) the eligible players 1500/1400/1300 seed to (1500 vs
1400) and the only bye row belongs to the manually byed player. -/
theorem c3_round1_seeding_witness :
    (roundNumberOf baseFour 1 = some 1 ∧
      2 ≤ (getTournamentPlayersWithScores baseFour).length) ∧
    (generatePairings baseFour 1).1 = true ∧
    (((pairingsOfRound (generatePairings baseFour 1).2 1).filter
        (fun e => e.2.black != none)).map (fun e => (e.2.white, e.2.black)) =
      [(1, some 3), (2, some 4)]) ∧
    (roundNumberOf baseFourBye 1 = some 1 ∧
      2 ≤ (getTournamentPlayersWithScores baseFourBye).length ∧
      manualByeIdsForRound baseFourBye 1 = [4] ∧
      (((pairingsOfRound (generatePairings baseFourBye 1).2 1).filter
          (fun e => e.2.black != none)).map (fun e => (e.2.white, e.2.black)) =
        [(1, some 2)]) ∧
      ∀ e ∈ pairingsOfRound (generatePairings baseFourBye 1).2 1,
        e.2.black = none → e.2.white ∈ manualByeIdsForRound baseFourBye 1) :=
  ⟨⟨by decide, by decide⟩,
   (c3_round1_seeding baseFour 1 (by decide) (by decide)).1,
   ((c3_round1_seeding baseFour 1 (by decide) (by decide)).2.1).trans (by decide),
   ⟨by decide, by decide, by decide,
    ((c3_round1_seeding baseFourBye 1 (by decide) (by decide)).2.1).trans (by decide),
    (c3_round1_seeding baseFourBye 1 (by decide) (by decide)).2.2.2.2 (by decide)⟩⟩

/-! ## C2 amended: colour balance after round 1 -/

theorem count_map_fst_zip {α β γ : Type} [DecidableEq γ] (f : α → γ) (a : γ) :
    ∀ (l1 : List α) (l2 : List β),
      ((l1.zip l2).map (fun pr => f pr.1)).count a ≤ (l1.map f).count a := by
  intro l1
  induction l1 with
  | nil => intro l2; simp
  | cons x l1 ih =>
    intro l2
    cases l2 with
    | nil => simp
    | cons y l2 =>
      simp only [List.zip_cons_cons, List.map_cons, List.count_cons]
      have := ih l2
      by_cases h : f x = a
      · have hb : (f x == a) = true := by simpa using h
        simp only [hb, if_true]
        omega
      · have hb : (f x == a) = false := by simpa using h
        simp only [hb, Bool.false_eq_true, if_false]
        omega

theorem count_map_snd_zip {α β γ : Type} [DecidableEq γ] (g : β → γ) (a : γ) :
    ∀ (l1 : List α) (l2 : List β),
      ((l1.zip l2).map (fun pr => g pr.2)).count a ≤ (l2.map g).count a := by
  intro l1
  induction l1 with
  | nil => intro l2; simp
  | cons x l1 ih =>
    intro l2
    cases l2 with
    | nil => simp
    | cons y l2 =>
      simp only [List.zip_cons_cons, List.map_cons, List.count_cons]
      have := ih l2
      by_cases h : g y = a
      · have hb : (g y == a) = true := by simpa using h
        simp only [hb, if_true]
        omega
      · have hb : (g y == a) = false := by simpa using h
        simp only [hb, Bool.false_eq_true, if_false]
        omega

theorem mkRows_white_count (rid : Nat) (pid : PlayerId) :
    ∀ (pairs : List (TPlayer × TPlayer)) (sid board : Nat),
      ((mkRows rid sid board (pairs.map (fun pr => (pr.1.id, some pr.2.id)))).filter
        (fun e => e.2.white == pid && e.2.black != none)).length =
      (pairs.map (fun pr => pr.1.id)).count pid := by
  intro pairs
  induction pairs with
  | nil => intro sid board; rfl
  | cons x rest ih =>
    intro sid board
    simp only [List.map_cons, mkRows, List.filter_cons]
    have hwn : ((some x.2.id : Option PlayerId) != none) = true := rfl
    by_cases h : x.1.id = pid
    · have hb : (x.1.id == pid) = true := by simpa using h
      simp only [hb, hwn, Bool.and_self, if_true, List.length_cons, List.count_cons]
      rw [ih]
    · have hb : (x.1.id == pid) = false := by simpa using h
      simp only [hb, hwn, Bool.false_and, Bool.false_eq_true, if_false, List.count_cons]
      rw [ih]
      omega

theorem mkRows_black_count (rid : Nat) (pid : PlayerId) :
    ∀ (pairs : List (TPlayer × TPlayer)) (sid board : Nat),
      ((mkRows rid sid board (pairs.map (fun pr => (pr.1.id, some pr.2.id)))).filter
        (fun e => e.2.black == some pid)).length =
      (pairs.map (fun pr => pr.2.id)).count pid := by
  intro pairs
  induction pairs with
  | nil => intro sid board; rfl
  | cons x rest ih =>
    intro sid board
    simp only [List.map_cons, mkRows, List.filter_cons]
    by_cases h : x.2.id = pid
    · have hb : ((some x.2.id : Option PlayerId) == some pid) = true := by simpa using h
      have hbc : (x.2.id == pid) = true := by simpa using h
      simp only [hb, hbc, if_true, List.length_cons, List.count_cons]
      rw [ih]
    · have hb : ((some x.2.id : Option PlayerId) == some pid) = false := by
        simpa using h
      have hbc : (x.2.id == pid) = false := by simpa using h
      simp only [hb, hbc, Bool.false_eq_true, if_false, List.count_cons]
      rw [ih]
      omega

/-- The pairing table of a fresh round-1 generation: some rows with a
NULL black (the manual byes and/or the automatic bye, if any) followed
by the `round1Pairs` rows over the eligible players. -/
theorem round1_result_rows (db : DB) (rid : Nat)
    (hnum : roundNumberOf db rid = some 1)
    (hlen2 : ¬ (getTournamentPlayersWithScores db).length < 2)
    (hfresh : db.pairings = []) :
    ∃ (pre : List (Nat × Pairing)) (sid : Nat),
      (generatePairings db rid).2.pairings =
        pre ++ mkRows rid sid 1
          ((round1Pairs (ssort ratingDescLt ((getTournamentPlayersWithScores db).filter
            (fun p => !((manualByeIdsForRound db 1).contains p.id))))).map
            (fun pr => (pr.1.id, some pr.2.id))) ∧
      (∀ e ∈ pre, e.2.black = none) := by
  obtain ⟨pre, sid, _, hrows, hprop⟩ := round1_rows_shape db rid hnum hlen2
  refine ⟨pre, sid, ?_, fun e he => (hprop e he).2.1⟩
  rw [hrows, hfresh]
  simp

/-- C2 amended: immediately after generating round 1 on a fresh
tournament (no earlier pairings, distinct player ids), every player
has been assigned at most one real game — bye rows, manual or
automatic, carry a NULL black and count in neither colour — so
`|white − black| ≤ 1`.  In later rounds the bound fails: the
"pair the top remaining players" path assigns colours without looking
at history (see the counterexample, where a player is white in both
rounds 1 and 2). -/
theorem c2_round1_color_balance (db : DB) (rid : Nat)
    (hnum : roundNumberOf db rid = some 1)
    (hfresh : db.pairings = [])
    (hnodup : (db.players.map (fun p => p.id)).Nodup) :
    ∀ pid, whiteGames (generatePairings db rid).2 pid +
        blackGames (generatePairings db rid).2 pid ≤ 1 ∧
      ((whiteGames (generatePairings db rid).2 pid : Int) -
        (blackGames (generatePairings db rid).2 pid : Int)).natAbs ≤ 1 := by
  intro pid
  have hsum : whiteGames (generatePairings db rid).2 pid +
      blackGames (generatePairings db rid).2 pid ≤ 1 := by
    by_cases hlen2 : (getTournamentPlayersWithScores db).length < 2
    · rw [generatePairings, if_pos hlen2]
      simp [whiteGames, blackGames, hfresh]
    · rcases round1_result_rows db rid hnum hlen2 hfresh with ⟨pre, sid, hrows, hpre⟩
      have hperm : (ssort ratingDescLt ((getTournamentPlayersWithScores db).filter
          (fun p => !((manualByeIdsForRound db 1).contains p.id)))).Perm
          (db.players.filter (fun p => !((manualByeIdsForRound db 1).contains p.id))) :=
        (ssort_perm _ _).trans ((ssort_perm swissLt db.players).filter _)
      have hnodupF : ((db.players.filter
          (fun p => !((manualByeIdsForRound db 1).contains p.id))).map
          (fun p => p.id)).Nodup :=
        hnodup.sublist ((List.filter_sublist db.players).map (fun p : TPlayer => p.id))
      have hnodupS : (((ssort ratingDescLt ((getTournamentPlayersWithScores db).filter
          (fun p => !((manualByeIdsForRound db 1).contains p.id)))).map
          (fun p => p.id))).Nodup :=
        ((hperm.map (fun p => p.id)).nodup_iff).mpr hnodupF
      have hcountS : ((ssort ratingDescLt ((getTournamentPlayersWithScores db).filter
          (fun p => !((manualByeIdsForRound db 1).contains p.id)))).map
          (fun p => p.id)).count pid ≤ 1 :=
        List.nodup_iff_count_le_one.mp hnodupS pid
      have hpreW : (pre.filter (fun e => e.2.white == pid && e.2.black != none)).length = 0 := by
        rw [List.length_eq_zero]
        rw [List.filter_eq_nil]
        intro e he
        rw [hpre e he]
        simp
      have hpreB : (pre.filter (fun e => e.2.black == some pid)).length = 0 := by
        rw [List.length_eq_zero]
        rw [List.filter_eq_nil]
        intro e he
        rw [hpre e he]
        simp
      have hsplit : ((ssort ratingDescLt ((getTournamentPlayersWithScores db).filter
          (fun p => !((manualByeIdsForRound db 1).contains p.id)))).map
          (fun p => p.id)).count pid =
        (((ssort ratingDescLt ((getTournamentPlayersWithScores db).filter
            (fun p => !((manualByeIdsForRound db 1).contains p.id)))).take
            ((ssort ratingDescLt ((getTournamentPlayersWithScores db).filter
              (fun p => !((manualByeIdsForRound db 1).contains p.id)))).length / 2)).map
          (fun p => p.id)).count pid +
        (((ssort ratingDescLt ((getTournamentPlayersWithScores db).filter
            (fun p => !((manualByeIdsForRound db 1).contains p.id)))).drop
            ((ssort ratingDescLt ((getTournamentPlayersWithScores db).filter
              (fun p => !((manualByeIdsForRound db 1).contains p.id)))).length / 2)).map
          (fun p => p.id)).count pid := by
        conv_lhs => rw [← List.take_append_drop
          ((ssort ratingDescLt ((getTournamentPlayersWithScores db).filter
            (fun p => !((manualByeIdsForRound db 1).contains p.id)))).length / 2)
          (ssort ratingDescLt ((getTournamentPlayersWithScores db).filter
            (fun p => !((manualByeIdsForRound db 1).contains p.id))))]
        rw [List.map_append, List.count_append]
      have hW := mkRows_white_count rid pid
        (round1Pairs (ssort ratingDescLt ((getTournamentPlayersWithScores db).filter
          (fun p => !((manualByeIdsForRound db 1).contains p.id))))) sid 1
      have hB := mkRows_black_count rid pid
        (round1Pairs (ssort ratingDescLt ((getTournamentPlayersWithScores db).filter
          (fun p => !((manualByeIdsForRound db 1).contains p.id))))) sid 1
      have hWz := count_map_fst_zip (fun p : TPlayer => p.id) pid
        ((ssort ratingDescLt ((getTournamentPlayersWithScores db).filter
          (fun p => !((manualByeIdsForRound db 1).contains p.id)))).take
          ((ssort ratingDescLt ((getTournamentPlayersWithScores db).filter
            (fun p => !((manualByeIdsForRound db 1).contains p.id)))).length / 2))
        ((ssort ratingDescLt ((getTournamentPlayersWithScores db).filter
          (fun p => !((manualByeIdsForRound db 1).contains p.id)))).drop
          ((ssort ratingDescLt ((getTournamentPlayersWithScores db).filter
            (fun p => !((manualByeIdsForRound db 1).contains p.id)))).length / 2))
      have hBz := count_map_snd_zip (fun p : TPlayer => p.id) pid
        ((ssort ratingDescLt ((getTournamentPlayersWithScores db).filter
          (fun p => !((manualByeIdsForRound db 1).contains p.id)))).take
          ((ssort ratingDescLt ((getTournamentPlayersWithScores db).filter
            (fun p => !((manualByeIdsForRound db 1).contains p.id)))).length / 2))
        ((ssort ratingDescLt ((getTournamentPlayersWithScores db).filter
          (fun p => !((manualByeIdsForRound db 1).contains p.id)))).drop
          ((ssort ratingDescLt ((getTournamentPlayersWithScores db).filter
            (fun p => !((manualByeIdsForRound db 1).contains p.id)))).length / 2))
      unfold whiteGames blackGames
      rw [hrows, List.filter_append, List.filter_append, List.length_append,
        List.length_append, hpreW, hpreB, hW, hB]
      unfold round1Pairs at hWz hBz ⊢
      omega
  exact ⟨hsum, by omega⟩

/-- C2 amended, witnessed on a round-1 state WITH a manual bye
(player 3 of `baseThreeBye`): both the paired player 1 and the byed
player 3 satisfy the colour bound. -/
theorem c2_round1_color_balance_witness :
    (roundNumberOf baseThreeBye 1 = some 1 ∧ baseThreeBye.pairings = [] ∧
      (baseThreeBye.players.map (fun p => p.id)).Nodup ∧
      manualByeIdsForRound baseThreeBye 1 = [3]) ∧
    (whiteGames (generatePairings baseThreeBye 1).2 1 +
        blackGames (generatePairings baseThreeBye 1).2 1 ≤ 1 ∧
      ((whiteGames (generatePairings baseThreeBye 1).2 1 : Int) -
        (blackGames (generatePairings baseThreeBye 1).2 1 : Int)).natAbs ≤ 1) ∧
    (whiteGames (generatePairings baseThreeBye 1).2 3 +
        blackGames (generatePairings baseThreeBye 1).2 3 ≤ 1 ∧
      ((whiteGames (generatePairings baseThreeBye 1).2 3 : Int) -
        (blackGames (generatePairings baseThreeBye 1).2 3 : Int)).natAbs ≤ 1) :=
  ⟨⟨by decide, by decide, by decide, by decide⟩,
   c2_round1_color_balance baseThreeBye 1 (by decide) (by decide) (by decide) 1,
   c2_round1_color_balance baseThreeBye 1 (by decide) (by decide) (by decide) 3⟩

/-- C8 fails on the code: with ratings 1500 and 1200 and a single
decisive game, the standings report performance 100 — the score
percentage `round(1/1 * 100)` of line 2297 — while the spec's formula
`avgOpponentRating + 400*(2*scorePct - 1)` gives 1200 + 400 = 1600. -/
theorem c8_performance_not_elo :
    performanceOf defaultPoints basePerf 1 = 100 ∧
    specPerformance defaultPoints basePerf 1 = 1600 ∧
    ((100 : ℤ) : ℚ) ≠ 1600 := by
  refine ⟨?_, ?_, by norm_num⟩
  · simp [performanceOf, standingsStats, statsOn, statsStep, statUpdate, initRow, playerIds,
      defaultPoints, basePerf, pyRound]
  · simp [specPerformance, standingsStats, statsOn, statsStep, statUpdate, initRow, playerIds,
      defaultPoints, basePerf, ratingOf]
    norm_num

/-- C8 amended: the reported performance indicator is the player's
score percentage over completed games, `round((wins + draws*0.5) /
(wins+losses+draws) * 100)` with Python banker's rounding, and it
depends only on the stored pairings and the player-id list — replacing
every rating while keeping pairings and ids fixed leaves it unchanged,
so it cannot agree with the spec's rating-based Elo formula. -/
theorem c8_performance_amended (cfg : PointValues) (db db2 : DB) (pid : PlayerId)
    (hp : db2.pairings = db.pairings) (hi : playerIds db2 = playerIds db) :
    performanceOf cfg db2 pid = performanceOf cfg db pid ∧
    (0 < (standingsStats cfg db pid).wins + (standingsStats cfg db pid).losses +
        (standingsStats cfg db pid).draws →
      performanceOf cfg db pid =
        pyRound ((((standingsStats cfg db pid).wins : ℚ) +
          ((standingsStats cfg db pid).draws : ℚ) * (1 / 2)) /
          (((standingsStats cfg db pid).wins + (standingsStats cfg db pid).losses +
            (standingsStats cfg db pid).draws : Nat) : ℚ) * 100)) := by
  constructor
  · unfold performanceOf standingsStats
    rw [hp, hi]
  · intro h
    simp only [performanceOf]
    rw [if_pos h]

/-- C8 amended, witnessed: zeroing one rating and raising the other to
9999 (same pairings, same ids) leaves the reported performance of
player 1 unchanged. -/
theorem c8_performance_amended_witness :
    basePerfAlt.pairings = basePerf.pairings ∧
    playerIds basePerfAlt = playerIds basePerf ∧
    basePerfAlt.players.map (fun p => p.rating) ≠ basePerf.players.map (fun p => p.rating) ∧
    performanceOf defaultPoints basePerfAlt 1 = performanceOf defaultPoints basePerf 1 :=
  ⟨rfl, rfl, by decide,
   (c8_performance_amended defaultPoints basePerf basePerfAlt 1 rfl rfl).1⟩

/-- One pairing of the stats loop appends to `pid`'s opponent list
exactly the entry `entryOf` describes, and bumps `gamesPlayed` exactly
when that entry is completed (requires `white ≠ black`, without which
the loop would append two entries for the same player). -/
lemma statsStep_opp_gp (cfg : PointValues) (ids : List PlayerId)
    (st : PlayerId → SRow) (e : Nat × Pairing) (pid : PlayerId)
    (hne : e.2.black ≠ some e.2.white) :
    (statsStep cfg ids st e pid).opponents
        = (st pid).opponents ++ ((entryOf ids e pid).toList.map Prod.fst) ∧
    (statsStep cfg ids st e pid).gamesPlayed
        = (st pid).gamesPlayed +
          ((entryOf ids e pid).toList.filter (fun en => en.2)).length := by
  cases hb : e.2.black with
  | none =>
    by_cases hw : e.2.white ∈ ids
    · by_cases hpw : pid = e.2.white
      · by_cases hc : e.2.result.isSome
        · subst hpw
          simp [statsStep, entryOf, hb, hw, hc, statUpdate]
        · subst hpw
          simp [statsStep, entryOf, hb, hw, hc, statUpdate]
      · by_cases hc : e.2.result.isSome <;>
          simp [statsStep, entryOf, hb, hw, hc, statUpdate, Ne.symm hpw, hpw]
    · simp [statsStep, entryOf, hb, hw, statUpdate]
  | some bid =>
    have hbw : bid ≠ e.2.white := by
      intro h; exact hne (by rw [hb, h])
    by_cases hw : e.2.white ∈ ids
    · by_cases hbi : bid ∈ ids
      · by_cases hpw : pid = e.2.white
        · have hpb : pid ≠ bid := by rw [hpw]; exact fun h => hbw h.symm
          by_cases hc : e.2.result.isSome
          · rcases hr : e.2.result with _ | r
            · simp [hr] at hc
            · subst hpw
              by_cases h10 : r = "1-0"
              · simp [statsStep, entryOf, hb, hw, hbi, hc, hr, h10, statUpdate, hpb, Ne.symm hpb, hbw]
              · by_cases h01 : r = "0-1"
                · simp [statsStep, entryOf, hb, hw, hbi, hc, hr, h10, h01, statUpdate, hpb, Ne.symm hpb, hbw]
                · by_cases h55 : r = "0.5-0.5"
                  · simp [statsStep, entryOf, hb, hw, hbi, hc, hr, h10, h01, h55, statUpdate, hpb, Ne.symm hpb, hbw]
                  · simp [statsStep, entryOf, hb, hw, hbi, hc, hr, h10, h01, h55, statUpdate, hpb, Ne.symm hpb, hbw]
          · subst hpw
            simp [statsStep, entryOf, hb, hw, hbi, hc, statUpdate, hpb, Ne.symm hpb, hbw]
        · by_cases hpb : pid = bid
          · subst hpb
            by_cases hc : e.2.result.isSome
            · rcases hr : e.2.result with _ | r
              · simp [hr] at hc
              · by_cases h10 : r = "1-0"
                · simp [statsStep, entryOf, hb, hw, hbi, hc, hr, h10, statUpdate, hpw, Ne.symm hpw, hbw]
                · by_cases h01 : r = "0-1"
                  · simp [statsStep, entryOf, hb, hw, hbi, hc, hr, h10, h01, statUpdate, hpw, Ne.symm hpw, hbw]
                  · by_cases h55 : r = "0.5-0.5"
                    · simp [statsStep, entryOf, hb, hw, hbi, hc, hr, h10, h01, h55, statUpdate, hpw, Ne.symm hpw, hbw]
                    · simp [statsStep, entryOf, hb, hw, hbi, hc, hr, h10, h01, h55, statUpdate, hpw, Ne.symm hpw, hbw]
            · simp [statsStep, entryOf, hb, hw, hbi, hc, statUpdate, hpw, Ne.symm hpw, hbw]
          · by_cases hc : e.2.result.isSome
            · rcases hr : e.2.result with _ | r
              · simp [hr] at hc
              · by_cases h10 : r = "1-0"
                · simp [statsStep, entryOf, hb, hw, hbi, hc, hr, h10, statUpdate, hpw, Ne.symm hpw, hpb, Ne.symm hpb]
                · by_cases h01 : r = "0-1"
                  · simp [statsStep, entryOf, hb, hw, hbi, hc, hr, h10, h01, statUpdate, hpw, Ne.symm hpw, hpb, Ne.symm hpb]
                  · by_cases h55 : r = "0.5-0.5"
                    · simp [statsStep, entryOf, hb, hw, hbi, hc, hr, h10, h01, h55, statUpdate, hpw, Ne.symm hpw, hpb, Ne.symm hpb]
                    · simp [statsStep, entryOf, hb, hw, hbi, hc, hr, h10, h01, h55, statUpdate, hpw, Ne.symm hpw, hpb, Ne.symm hpb]
            · simp [statsStep, entryOf, hb, hw, hbi, hc, statUpdate, hpw, Ne.symm hpw, hpb, Ne.symm hpb]
      · simp [statsStep, entryOf, hb, hw, hbi, statUpdate]
    · simp [statsStep, entryOf, hb, hw, statUpdate]

/-- Folding the stats loop over a pairing list accumulates exactly the
`oppEntries` opponent list, and `gamesPlayed` counts its completed
entries. -/
lemma foldl_statsStep_opp_gp (cfg : PointValues) (ids : List PlayerId) (pid : PlayerId) :
    ∀ (l : List (Nat × Pairing)), (∀ e ∈ l, e.2.black ≠ some e.2.white) →
      ∀ (st : PlayerId → SRow),
      ((l.foldl (statsStep cfg ids) st) pid).opponents
          = (st pid).opponents ++ (oppEntries ids l pid).map Prod.fst ∧
      ((l.foldl (statsStep cfg ids) st) pid).gamesPlayed
          = (st pid).gamesPlayed +
            ((oppEntries ids l pid).filter (fun en => en.2)).length := by
  intro l
  induction l with
  | nil => intro _ st; simp [oppEntries]
  | cons e rest ih =>
    intro h st
    obtain ⟨ho, hg⟩ := statsStep_opp_gp cfg ids st e pid (h e (List.mem_cons_self _ _))
    obtain ⟨ro, rg⟩ := ih (fun x hx => h x (List.mem_cons_of_mem _ hx)) (statsStep cfg ids st e)
    constructor
    · rw [List.foldl_cons, ro, ho, List.append_assoc]
      congr 1
      simp only [oppEntries, List.filterMap_cons]
      cases entryOf ids e pid <;> simp
    · rw [List.foldl_cons, rg, hg, Nat.add_assoc]
      congr 1
      simp only [oppEntries, List.filterMap_cons]
      rcases hen : entryOf ids e pid with _ | ⟨o, b⟩
      · simp
      · cases b <;> simp [List.filter_cons] <;> omega

/-- The standings row of `pid`: its opponent list is `oppEntries` and
its `gamesPlayed` is the number of completed entries. -/
lemma standings_opp_gp (cfg : PointValues) (db : DB) (pid : PlayerId)
    (h : ∀ e ∈ db.pairings, e.2.black ≠ some e.2.white) :
    (standingsStats cfg db pid).opponents
        = (oppEntries (playerIds db) db.pairings pid).map Prod.fst ∧
    (standingsStats cfg db pid).gamesPlayed
        = ((oppEntries (playerIds db) db.pairings pid).filter (fun en => en.2)).length := by
  have := foldl_statsStep_opp_gp cfg (playerIds db) pid db.pairings h (fun _ => initRow)
  simpa [standingsStats, statsOn, initRow] using this

lemma completedOppAux_append (ids : List PlayerId) (gp : Nat) :
    ∀ (l1 l2 : List (Option PlayerId)) (i : Nat),
      completedOppAux ids gp i (l1 ++ l2)
        = completedOppAux ids gp i l1 ++ completedOppAux ids gp (i + l1.length) l2 := by
  intro l1
  induction l1 with
  | nil => intro l2 i; simp [completedOppAux]
  | cons o rest ih =>
    intro l2 i
    have harith : i + (rest.length + 1) = i + 1 + rest.length := by omega
    cases o with
    | none =>
      simp only [List.cons_append, completedOppAux, List.length_cons, harith, List.append_eq]
      exact ih l2 (i + 1)
    | some a =>
      simp only [List.cons_append, completedOppAux, List.length_cons, harith, List.append_eq]
      rw [ih l2 (i + 1)]
      split <;> simp

/-- The positional filter drops every entry whose index is at or past
`games_played`. -/
lemma completedOppAux_ge (ids : List PlayerId) (gp : Nat) :
    ∀ (l : List (Option PlayerId)) (i : Nat), gp ≤ i →
      completedOppAux ids gp i l = [] := by
  intro l
  induction l with
  | nil => intro i _; simp [completedOppAux]
  | cons o rest ih =>
    intro i hi
    cases o with
    | none => simpa [completedOppAux] using ih (i + 1) (by omega)
    | some a =>
      have hng : ¬ gp > i := by omega
      simp only [completedOppAux, hng, decide_False, Bool.and_false, if_false]
      exact ih (i + 1) (by omega)

/-- The positional filter keeps every known real opponent whose whole
segment lies below `games_played`. -/
lemma completedOppAux_lt (ids : List PlayerId) (gp : Nat) :
    ∀ (l : List (Option PlayerId)) (i : Nat),
      (∀ a, some a ∈ l → ids.contains a = true) → i + l.length ≤ gp →
      completedOppAux ids gp i l = l.filterMap id := by
  intro l
  induction l with
  | nil => intro i _ _; simp [completedOppAux]
  | cons o rest ih =>
    intro i hc hlen
    cases o with
    | none =>
      simp only [completedOppAux, List.filterMap_cons]
      exact ih (i + 1) (fun a ha => hc a (by simp [ha])) (by simp at hlen; omega)
    | some a =>
      have hgi : gp > i := by simp at hlen; omega
      have hca : ids.contains a = true := hc a (by simp)
      simp only [completedOppAux, hgi, decide_True, hca, Bool.true_and, if_true,
        List.filterMap_cons, id]
      rw [ih (i + 1) (fun a ha => hc a (by simp [ha])) (by simp at hlen; omega)]

/-- Every real opponent in an `oppEntries` list is a known player. -/
lemma oppEntries_contains (ids : List PlayerId) (l : List (Nat × Pairing)) (pid : PlayerId) :
    ∀ en ∈ oppEntries ids l pid, ∀ a, en.1 = some a → ids.contains a = true := by
  intro en hen a hfst
  obtain ⟨e, _, hentry⟩ := List.mem_filterMap.1 hen
  rcases hb : e.2.black with _ | bid
  all_goals simp only [entryOf, hb] at hentry
  · split at hentry
    · obtain rfl := Option.some.inj hentry
      simp at hfst
    · exact absurd hentry (by simp)
  · split at hentry
    · rename_i hcond
      split at hentry
      · obtain rfl := Option.some.inj hentry
        simp only [Option.some.injEq] at hfst
        rw [← hfst]
        rw [Bool.and_eq_true] at hcond
        exact hcond.2
      · split at hentry
        · obtain rfl := Option.some.inj hentry
          simp only [Option.some.injEq] at hfst
          rw [← hfst]
          rw [Bool.and_eq_true] at hcond
          exact hcond.1
        · exact absurd hentry (by simp)
    · exact absurd hentry (by simp)

lemma filterMap_id_map_fst (ds : List (Option PlayerId × Bool)) :
    (ds.map Prod.fst).filterMap id = ds.filterMap Prod.fst := by
  induction ds with
  | nil => simp
  | cons x xs ihx => cases hx : x.1 <;> simp [List.filterMap_cons, hx, ihx]

/-- The spec-modelled Buchholz sum splits into the bye part (one half
average per bye entry) and the points of the completed real
opponents. -/
lemma buch_entry_sum (cfg : PointValues) (db : DB) :
    ∀ (es : List (Option PlayerId × Bool)),
      (es.map (fun en =>
        match en with
        | (none, _) => avgPoints cfg db * (1 / 2)
        | (some opp, true) => (standingsStats cfg db opp).points
        | (some _, false) => 0)).sum
      = ((es.filter (fun en => en.1 == none)).length : ℚ) * (avgPoints cfg db * (1 / 2))
        + ((es.filterMap (fun en => if en.2 then en.1 else none)).map
            (fun opp => (standingsStats cfg db opp).points)).sum := by
  intro es
  induction es with
  | nil => simp
  | cons en rest ih =>
    obtain ⟨o, b⟩ := en
    rw [List.map_cons, List.sum_cons, List.filter_cons, List.filterMap_cons, ih]
    cases o <;> cases b <;> simp <;> push_cast <;> ring

/-- C9 fails on the code: in `baseBuch`, player 1's opponent list is
`[2 (uncompleted), 3 (completed)]` with `games_played = 1`, and the
positional filter `games_played > i` of line 2312 keeps opponent 2
(whose game has no result) and drops opponent 3 (whose game is
completed).  Player 2 has 0 points and player 3 has 1, so the code
reports Buchholz 0 where the spec's sum over completed games gives
1. -/
theorem c9_buchholz_positional_counterexample :
    buchholzOf defaultPoints baseBuch 1 = 0 ∧
    specBuchholz defaultPoints baseBuch 1 = 1 ∧ ((0 : ℚ) ≠ 1) := by
  refine ⟨?_, ?_, by norm_num⟩
  · simp [buchholzOf, standingsStats, statsOn, statsStep, statUpdate, initRow, playerIds,
      defaultPoints, baseBuch, avgPoints, completedOpponents, completedOppAux]
  · simp [specBuchholz, oppEntries, entryOf, standingsStats, statsOn, statsStep, statUpdate,
      initRow, playerIds, defaultPoints, baseBuch, avgPoints]

/-- C9 amended: the code's Buchholz tests each opponent positionally
(`games_played > index`), not by the game's completedness; the two
agree exactly when the player's completed games all precede the
uncompleted ones in the stored pairing order.  Under that ordering
(and distinct colours in each pairing), the reported Buchholz equals
the spec's sum: the points of the opponents from completed games plus
half the field's average points per bye. -/
theorem c9_buchholz_amended (cfg : PointValues) (db : DB) (pid : PlayerId)
    (done pend : List (Option PlayerId × Bool))
    (hne : ∀ e ∈ db.pairings, e.2.black ≠ some e.2.white)
    (hsplit : oppEntries (playerIds db) db.pairings pid = done ++ pend)
    (hdone : ∀ en ∈ done, en.2 = true)
    (hpend : ∀ en ∈ pend, en.2 = false) :
    buchholzOf cfg db pid = specBuchholz cfg db pid := by
  obtain ⟨ho, hg⟩ := standings_opp_gp cfg db pid hne
  have hcont := oppEntries_contains (playerIds db) db.pairings pid
  have hfil1 : done.filter (fun en => en.2) = done :=
    List.filter_eq_self.2 (fun a ha => by simp [hdone a ha])
  have hfil2 : pend.filter (fun en => en.2) = [] :=
    List.filter_eq_nil_iff.2 (fun a ha => by simp [hpend a ha])
  have hgp : (standingsStats cfg db pid).gamesPlayed = done.length := by
    rw [hg, hsplit, List.filter_append, hfil1, hfil2, List.append_nil]
  have hcomp : completedOpponents (playerIds db) (standingsStats cfg db pid).gamesPlayed
      (standingsStats cfg db pid).opponents = done.filterMap Prod.fst := by
    rw [ho, hsplit, hgp, List.map_append]
    unfold completedOpponents
    rw [completedOppAux_append]
    have h1 : completedOppAux (playerIds db) done.length 0 (done.map Prod.fst)
        = (done.map Prod.fst).filterMap id := by
      apply completedOppAux_lt
      · intro a ha
        obtain ⟨en, hen, hfst⟩ := List.mem_map.1 ha
        exact hcont en (by rw [hsplit]; exact List.mem_append_left _ hen) a hfst
      · simp
    have h2 : completedOppAux (playerIds db) done.length (0 + (done.map Prod.fst).length)
        (pend.map Prod.fst) = [] := by
      apply completedOppAux_ge
      simp
    rw [h1, h2, List.append_nil, filterMap_id_map_fst]
  have hsum : ((done.filterMap Prod.fst).map
      (fun opp => if (playerIds db).contains opp then (standingsStats cfg db opp).points
        else 0))
      = (done.filterMap Prod.fst).map (fun opp => (standingsStats cfg db opp).points) := by
    apply List.map_congr_left
    intro a ha
    obtain ⟨en, hen, hfst⟩ := List.mem_filterMap.1 ha
    have hct := hcont en (by rw [hsplit]; exact List.mem_append_left _ hen) a hfst
    rw [if_pos hct]
  have hflag : (done ++ pend).filterMap (fun en => if en.2 then en.1 else none)
      = done.filterMap Prod.fst := by
    rw [List.filterMap_append]
    have h1 : done.filterMap (fun en => if en.2 then en.1 else none)
        = done.filterMap Prod.fst := by
      apply List.filterMap_congr
      intro en hen
      simp [hdone en hen]
    have h2 : pend.filterMap (fun en => if en.2 then en.1 else none) = [] := by
      apply List.filterMap_eq_nil_iff.2
      intro en hen
      simp [hpend en hen]
    rw [h1, h2, List.append_nil]
  have hnone : ((standingsStats cfg db pid).opponents.filter (fun o => o == none)).length
      = ((done ++ pend).filter (fun en => en.1 == none)).length := by
    rw [ho, hsplit, List.filter_map, List.length_map]
    rfl
  simp only [buchholzOf, specBuchholz]
  rw [hsplit, buch_entry_sum, hcomp, hsum, hnone, hflag]

/-- C9 amended, witnessed: in the fully completed state `buchDone`,
player 1's entries are all completed (`pend = []`) and the code's
Buchholz agrees with the spec's sum. -/
theorem c9_buchholz_amended_witness :
    (∀ e ∈ buchDone.pairings, e.2.black ≠ some e.2.white) ∧
    oppEntries (playerIds buchDone) buchDone.pairings 1
      = [(some 2, true), (some 3, true)] ++ [] ∧
    (∀ en ∈ [((some 2 : Option PlayerId), true), ((some 3 : Option PlayerId), true)],
      en.2 = true) ∧
    (∀ en ∈ ([] : List (Option PlayerId × Bool)), en.2 = false) ∧
    buchholzOf defaultPoints buchDone 1 = specBuchholz defaultPoints buchDone 1 :=
  ⟨by decide, by decide, by decide, by decide,
   c9_buchholz_amended defaultPoints buchDone 1
     [(some 2, true), (some 3, true)] [] (by decide) (by decide) (by decide) (by decide)⟩

end ChessPairings
